import Mathlib

/-
  Verification development for the crypto prediction repository.

  The numeric values of the program are modelled by the type Frac below:
  an integer numerator and a positive integer denominator, without
  normalisation.  This keeps every definition executable by kernel
  reduction (the normalised Rat of the standard library does not reduce
  in the kernel, because its operations are defined through Nat.gcd).
  The semantics of a Frac is the rational number Frac.val; all order and
  equality tests used by the programs are cross-multiplication tests and
  are proved equivalent to the order on the rational values.

  JavaScript undefined and NaN values that flow through the source are
  modelled by Option Frac (none = undefined or NaN); every comparison
  with such a value is false in JavaScript, which the o-prefixed Bool
  comparisons below reproduce.
-/

/-- A rational value with explicit positive denominator, kept unnormalised
so that all arithmetic reduces inside the kernel. -/
structure Frac where
  n : ℤ
  d : ℤ
  dpos : 0 < d

namespace Frac

/-- Semantics of a Frac as a rational number. -/
def val (x : Frac) : ℚ := (x.n : ℚ) / (x.d : ℚ)

def ofInt (k : ℤ) : Frac := ⟨k, 1, one_pos⟩

instance : OfNat Frac m := ⟨ofInt m⟩

/-- Literal a/b; a positive b is expected (the fallback branch is never
used by the development, all literal denominators are positive). -/
def q (a b : ℤ) : Frac :=
  if h : 0 < b then ⟨a, b, h⟩ else ⟨a, 1, one_pos⟩

/-- Euclid with explicit fuel, so that the kernel can evaluate it (the
greatest common divisor of the standard library is defined by
well-founded recursion and does not reduce). -/
def gcdAux : ℕ → ℕ → ℕ → ℕ
  | 0, a, _ => a
  | fuel + 1, a, b => if b = 0 then a else gcdAux fuel b (a % b)

def fgcd (a b : ℕ) : ℕ := gcdAux (b + 1) a b

theorem gcdAux_eq (fuel a b : ℕ) (h : b < fuel) : gcdAux fuel a b = Nat.gcd a b := by
  induction fuel generalizing a b with
  | zero => omega
  | succ fl ih =>
    unfold gcdAux
    by_cases hb : b = 0
    · simp [hb]
    · simp only [hb, if_false]
      rw [ih b (a % b) (by have := Nat.mod_lt a (Nat.pos_of_ne_zero hb); omega)]
      rw [Nat.gcd_comm b (a % b), ← Nat.gcd_rec b a, Nat.gcd_comm b a]

theorem fgcd_eq (a b : ℕ) : fgcd a b = Nat.gcd a b :=
  gcdAux_eq (b + 1) a b (Nat.lt_succ_self b)

/-- Reduce a fraction to lowest terms; the value is unchanged. -/
def norm (x : Frac) : Frac :=
  if h : 0 < x.d / (fgcd x.n.natAbs x.d.toNat : ℤ) then
    ⟨x.n / (fgcd x.n.natAbs x.d.toNat : ℤ), x.d / (fgcd x.n.natAbs x.d.toNat : ℤ), h⟩
  else x

theorem val_norm (x : Frac) : (norm x).val = x.val := by
  unfold norm
  split
  · next h =>
    have hg : 0 < fgcd x.n.natAbs x.d.toNat := by
      rw [fgcd_eq]
      exact Nat.gcd_pos_of_pos_right _ (by have := x.dpos; omega)
    set gn : ℕ := fgcd x.n.natAbs x.d.toNat with hgn
    have hgz : ((gn : ℤ)) ≠ 0 := by exact_mod_cast hg.ne'
    have hdvdn : (gn : ℤ) ∣ x.n := by
      have h1 : gn ∣ x.n.natAbs := by rw [hgn, fgcd_eq]; exact Nat.gcd_dvd_left _ _
      have h2 : (gn : ℤ) ∣ (x.n.natAbs : ℤ) := Int.natCast_dvd_natCast.mpr h1
      exact Int.dvd_natAbs.mp h2
    have hdvdd : (gn : ℤ) ∣ x.d := by
      have h1 : gn ∣ x.d.toNat := by rw [hgn, fgcd_eq]; exact Nat.gcd_dvd_right _ _
      have h2 : (gn : ℤ) ∣ (x.d.toNat : ℤ) := Int.natCast_dvd_natCast.mpr h1
      rwa [Int.toNat_of_nonneg x.dpos.le] at h2
    obtain ⟨a, ha⟩ := hdvdn
    obtain ⟨b, hb⟩ := hdvdd
    have hgq : ((gn : ℕ) : ℚ) ≠ 0 := by exact_mod_cast hgz
    have hnval : x.n / (gn : ℤ) = a := by rw [ha]; exact Int.mul_ediv_cancel_left _ hgz
    have hdval : x.d / (gn : ℤ) = b := by rw [hb]; exact Int.mul_ediv_cancel_left _ hgz
    simp only [val]
    rw [hnval, hdval, ha, hb]
    push_cast
    rw [mul_div_mul_left _ _ hgq]
  · rfl

protected def add (x y : Frac) : Frac :=
  norm ⟨x.n * y.d + y.n * x.d, x.d * y.d, mul_pos x.dpos y.dpos⟩

protected def sub (x y : Frac) : Frac :=
  norm ⟨x.n * y.d - y.n * x.d, x.d * y.d, mul_pos x.dpos y.dpos⟩

protected def mul (x y : Frac) : Frac :=
  norm ⟨x.n * y.n, x.d * y.d, mul_pos x.dpos y.dpos⟩

protected def neg (x : Frac) : Frac := ⟨-x.n, x.d, x.dpos⟩

/-- Division.  A zero divisor yields 0, matching the division convention
of the rational numbers; every place where the source program can divide
by zero is either modelled explicitly (the big-decimal divide that
throws) or noted at its use site. -/
protected def div (x y : Frac) : Frac :=
  norm <|
    if h : 0 < y.n then ⟨x.n * y.d, x.d * y.n, mul_pos x.dpos h⟩
    else if h2 : y.n < 0 then ⟨-(x.n * y.d), x.d * (-y.n), mul_pos x.dpos (by omega)⟩
    else ⟨0, 1, one_pos⟩

instance : Add Frac := ⟨Frac.add⟩
instance : Sub Frac := ⟨Frac.sub⟩
instance : Mul Frac := ⟨Frac.mul⟩
instance : Neg Frac := ⟨Frac.neg⟩
instance : Div Frac := ⟨Frac.div⟩

def abs (x : Frac) : Frac := ⟨|x.n|, x.d, x.dpos⟩

/-- Boolean strict order test by cross multiplication. -/
def blt (x y : Frac) : Bool := decide (x.n * y.d < y.n * x.d)

/-- Boolean non-strict order test by cross multiplication. -/
def ble (x y : Frac) : Bool := decide (x.n * y.d ≤ y.n * x.d)

def bgt (x y : Frac) : Bool := blt y x

def bge (x y : Frac) : Bool := ble y x

/-- Boolean value equality test by cross multiplication. -/
def beq (x y : Frac) : Bool := decide (x.n * y.d = y.n * x.d)

/-- Math.min of JavaScript on ordinary numbers. -/
def fmin (x y : Frac) : Frac := if ble x y then x else y

/-- Math.max of JavaScript on ordinary numbers. -/
def fmax (x y : Frac) : Frac := if ble x y then y else x

instance : Repr Frac := ⟨fun x _ => repr (x.n, x.d)⟩

theorem val_q (a b : ℤ) (h : 0 < b) : (q a b).val = (a : ℚ) / (b : ℚ) := by
  simp [q, h, val]

theorem val_ofInt (k : ℤ) : (ofInt k).val = (k : ℚ) := by
  simp [ofInt, val]

theorem val_zero : (0 : Frac).val = 0 := by
  show (ofInt 0).val = 0
  simp [ofInt, val]

theorem dcast_pos (x : Frac) : (0 : ℚ) < (x.d : ℚ) := by
  exact_mod_cast x.dpos

theorem val_add (x y : Frac) : (x + y).val = x.val + y.val := by
  have hx := x.dcast_pos
  have hy := y.dcast_pos
  show (Frac.add x y).val = _
  unfold Frac.add
  rw [val_norm]
  simp only [val]
  push_cast
  field_simp
  all_goals ring

theorem val_sub (x y : Frac) : (x - y).val = x.val - y.val := by
  have hx := x.dcast_pos
  have hy := y.dcast_pos
  show (Frac.sub x y).val = _
  unfold Frac.sub
  rw [val_norm]
  simp only [val]
  push_cast
  field_simp
  all_goals ring

theorem val_mul (x y : Frac) : (x * y).val = x.val * y.val := by
  have hx := x.dcast_pos
  have hy := y.dcast_pos
  show (Frac.mul x y).val = _
  unfold Frac.mul
  rw [val_norm]
  simp only [val]
  push_cast
  field_simp

theorem val_neg (x : Frac) : (-x).val = -x.val := by
  show (Frac.neg x).val = _
  simp [Frac.neg, val, neg_div]

theorem val_div (x y : Frac) : (x / y).val = x.val / y.val := by
  have hx := x.dcast_pos
  have hy := y.dcast_pos
  have hdx : (x.d : ℚ) ≠ 0 := ne_of_gt hx
  have hdy : (y.d : ℚ) ≠ 0 := ne_of_gt hy
  show (Frac.div x y).val = _
  unfold Frac.div
  rw [val_norm]
  split
  · next h =>
    have hyn : (y.n : ℚ) ≠ 0 := by
      have : (0 : ℚ) < (y.n : ℚ) := by exact_mod_cast h
      exact ne_of_gt this
    simp only [val]
    push_cast
    field_simp
    all_goals ring
  · split
    · next h h2 =>
      have hyn : (y.n : ℚ) ≠ 0 := by
        have : (y.n : ℚ) < 0 := by exact_mod_cast h2
        exact ne_of_lt this
      simp only [val]
      push_cast
      field_simp
      all_goals ring
    · next h h2 =>
      have hyn : y.n = 0 := by omega
      simp [val, hyn]

theorem val_abs (x : Frac) : x.abs.val = |x.val| := by
  have hx := x.dcast_pos
  simp only [abs, val, abs_div]
  rw [abs_of_pos hx]
  push_cast
  rfl

theorem blt_iff (x y : Frac) : blt x y = true ↔ x.val < y.val := by
  have hx := x.dcast_pos
  have hy := y.dcast_pos
  simp only [blt, decide_eq_true_eq, val]
  rw [div_lt_div_iff hx hy]
  constructor
  · intro h; exact_mod_cast h
  · intro h; exact_mod_cast h

theorem ble_iff (x y : Frac) : ble x y = true ↔ x.val ≤ y.val := by
  have hx := x.dcast_pos
  have hy := y.dcast_pos
  simp only [ble, decide_eq_true_eq, val]
  rw [div_le_div_iff hx hy]
  constructor
  · intro h; exact_mod_cast h
  · intro h; exact_mod_cast h

theorem beq_iff (x y : Frac) : beq x y = true ↔ x.val = y.val := by
  have hx := x.dcast_pos
  have hy := y.dcast_pos
  simp only [beq, decide_eq_true_eq, val, div_eq_div_iff hx.ne.symm hy.ne.symm]
  constructor
  · intro h; exact_mod_cast h
  · intro h; exact_mod_cast h

theorem lt_of_ble_false (x y : Frac) (h : ble x y = false) : y.val < x.val := by
  by_contra hc
  push_neg at hc
  have := (ble_iff x y).mpr hc
  rw [h] at this
  exact Bool.false_ne_true this

theorem val_fmin (x y : Frac) : (fmin x y).val = min x.val y.val := by
  unfold fmin
  cases h : ble x y with
  | false =>
    have := lt_of_ble_false x y h
    simp [min_eq_right this.le]
  | true =>
    have := (ble_iff x y).mp h
    simp [min_eq_left this]

theorem val_fmax (x y : Frac) : (fmax x y).val = max x.val y.val := by
  unfold fmax
  cases h : ble x y with
  | false =>
    have := lt_of_ble_false x y h
    simp [max_eq_left this.le]
  | true =>
    have := (ble_iff x y).mp h
    simp [max_eq_right this]

end Frac

open Frac (q ofInt fmin fmax)

/-
  JavaScript value helpers.  An Option Frac stands for a JavaScript
  number that may be undefined or NaN; both are falsy and both compare
  false under every relational operator, which is all the source
  programs do with them.
-/

/-- JavaScript a or-else d (the || operator): undefined, NaN and 0 are
falsy and select the fallback. -/
def jsOr (v : Option Frac) (dflt : Frac) : Frac :=
  match v with
  | none => dflt
  | some x => if x.beq 0 then dflt else x

/-- JavaScript string fallback s || d; the empty string is falsy. -/
def jsOrStr (s dflt : String) : String :=
  if s = "" then dflt else s

/-- JavaScript comparison a > b where a may be undefined or NaN. -/
def oGt (a : Option Frac) (b : Frac) : Bool :=
  match a with
  | none => false
  | some x => x.bgt b

/-- JavaScript comparison a < b where a may be undefined or NaN. -/
def oLt (a : Option Frac) (b : Frac) : Bool :=
  match a with
  | none => false
  | some x => x.blt b

/-- JavaScript comparison a > b where both sides may be undefined or NaN. -/
def oGtO (a b : Option Frac) : Bool :=
  match a, b with
  | some x, some y => x.bgt y
  | _, _ => false

/-- A JavaScript number that can be Infinity: the stop loss of the mean
reversion strategy (src/src/prediction.ts lines 479-484), the profit
factor and the maximum drawdown of the simulator can all become
Infinity. -/
inductive JsExtF where
  | fin (x : Frac)
  | inf
deriving Repr

def jsGtExt (a b : JsExtF) : Bool :=
  match a, b with
  | .fin x, .fin y => x.bgt y
  | .inf, .fin _ => true
  | _, .inf => false

namespace JsExtF

/-- Boolean value equality of two extended numbers. -/
def beq (a b : JsExtF) : Bool :=
  match a, b with
  | .fin x, .fin y => x.beq y
  | .inf, .inf => true
  | _, _ => false

end JsExtF

/-- The weighted stop combination x * a + y * b of
src/src/prediction.ts lines 593-594 and 605-606.  The weights at every
call are the positive constants of lines 566-575, so an Infinity operand
makes the JavaScript sum Infinity, as does the fin-fin arithmetic
otherwise. -/
def extWSum (x : JsExtF) (a : Frac) (y : JsExtF) (b : Frac) : JsExtF :=
  match x, y with
  | .fin u, .fin v => .fin (u * a + v * b)
  | _, _ => .inf

/-
  Data model, translated from src/src/types (unnamed part_005) and the
  shapes constructed in src/src/prediction.ts and src/src/utils/backtest.ts.
  Times are modelled as Frac numbers.  The optional marketSentiment field
  is modelled as a plain Frac: every execute destructures it with default
  0, so a caller that omits it passes 0 here.
-/

structure Candle where
  time : Frac
  openPrice : Frac
  high : Frac
  low : Frac
  close : Frac
  volume : Frac
deriving Repr

structure MarketData where
  symbol : String
  timeframe : String
  candles : List Candle
  marketSentiment : Frac
deriving Repr

inductive Direction where
  | long
  | short
  | neutral
deriving DecidableEq, Repr

/-- One entry of the indicators list of a prediction.  The value can be a
JavaScript undefined or NaN (none). -/
structure IndicatorOut where
  name : String
  value : Option Frac
  color : String
deriving Repr

/-- A prediction whose prices are plain finite numbers.  The simulator
analysis below quantifies over strategies of this shape. -/
structure Prediction where
  direction : Direction
  confidence : Frac
  targetPrice : Frac
  stopLoss : Frac
  indicators : List IndicatorOut
deriving Repr

structure PredictionResult where
  symbol : String
  timeframe : String
  timestamp : Frac
  currentPrice : Frac
  prediction : Prediction
  historicalAccuracy : Frac
deriving Repr

/-- The prediction component as the strategies of src/src/prediction.ts
emit it: the short near-resistance corner of lines 479-484 can drive the
serialized stopLoss to Infinity (Math.min over an empty spread), so that
field is an extended number; every other price stays finite. -/
structure PredictionE where
  direction : Direction
  confidence : Frac
  targetPrice : Frac
  stopLoss : JsExtF
  indicators : List IndicatorOut
deriving Repr

/-- PredictionResult as emitted by the three strategy executes. -/
structure PredictionResultE where
  symbol : String
  timeframe : String
  timestamp : Frac
  currentPrice : Frac
  prediction : PredictionE
  historicalAccuracy : Frac
deriving Repr

/-- Ambient wall clock: Date.now together with the day-of-week and
hour-of-day that new Date() reports at the moment execute runs. -/
structure Clock where
  now : Frac
  dayOfWeek : ℕ
  hourOfDay : ℕ
deriving Repr

/-- The runtime errors the strategies can raise: a TypeError from reading
a property of undefined, and the explicit divide-by-zero error the
js-big-decimal divide raises. -/
inductive JsErr where
  | typeError (msg : String)
  | divideByZero
deriving DecidableEq, Repr

/-- Default candle used to model the out-of-range array access semantics;
the development only evaluates accesses at indices the source also uses. -/
def zeroCandle : Candle :=
  { time := 0, openPrice := 0, high := 0, low := 0, close := 0, volume := 0 }

/-
  List arithmetic helpers.
-/

/-- Sum of a list of numbers (Array.reduce((a, b) => a + b, 0)). -/
def sumF (l : List Frac) : Frac := l.foldl (fun a b => a + b) 0

/-- Arithmetic mean; empty lists give 0 (never taken by the callers). -/
def meanF (l : List Frac) : Frac := sumF l / ofInt l.length

/-- Math.min over a spread array: undefined behaviour on the empty array
is Infinity, modelled by none. -/
def listMinO : List Frac → Option Frac
  | [] => none
  | x :: xs => some (xs.foldl fmin x)

/-- Math.max over a spread array: the empty array gives -Infinity,
modelled by none. -/
def listMaxO : List Frac → Option Frac
  | [] => none
  | x :: xs => some (xs.foldl fmax x)

/-- All sliding windows of width p, oldest first; empty when the list is
shorter than p. -/
def slidingWindows (p : ℕ) : List Frac → List (List Frac)
  | [] => []
  | x :: rest =>
    if p ≤ (x :: rest).length then ((x :: rest).take p) :: slidingWindows p rest
    else []

/-- Stable insertion into an ascending list, for the JavaScript numeric
sort used by the support/resistance clustering. -/
def insertSortedF (x : Frac) : List Frac → List Frac
  | [] => [x]
  | y :: ys => if x.ble y then x :: y :: ys else y :: insertSortedF x ys

def sortF (l : List Frac) : List Frac := l.foldl (fun acc x => insertSortedF x acc) []

/-- Bounded binary search for the integer square root. -/
def sqrtAuxN : ℕ → ℕ → ℕ → ℕ → ℕ
  | 0, lo, _, _ => lo
  | fuel + 1, lo, hi, m =>
    if hi ≤ lo + 1 then lo
    else
      let mid := (lo + hi) / 2
      if mid * mid ≤ m then sqrtAuxN fuel mid hi m else sqrtAuxN fuel lo mid m

def natSqrt (m : ℕ) : ℕ := sqrtAuxN (m + 2) 0 (m + 1) m

/-- Exact square root of a Frac value when the value is the square of a
rational, and 0 otherwise.  The square root of any other rational is
irrational and has no exact representation; the strategies only read the
standard deviation of their newest Bollinger window, and every concrete
input of this development makes that window variance a perfect square,
so the fallback value is never observed by a theorem below. -/
def sqrtF (x : Frac) : Frac :=
  if 0 < x.n then
    let p := x.n * x.d
    let r : ℤ := (natSqrt p.toNat : ℤ)
    if r * r = p then ⟨r, x.d, x.dpos⟩ else 0
  else 0

/-
  Indicator library.  The functions of this block model the calls the
  strategies make into the technicalindicators package, which is not part
  of this repository.  Modelled from the spec: section 4.1 and the
  glossary describe EMA (multiplier 2/(period+1), seeded with the first
  value, iterated from index 0), RSI (Wilder average gain/loss), MACD
  (fast EMA minus slow EMA plus a signal EMA of that difference),
  Bollinger Bands (SMA plus/minus 2 standard deviations) and Stochastic
  RSI (min-max normalised RSI smoothed by K and D moving averages).
  Where the library reports no value for a warm-up index, the entry is
  absent from the returned list, so a short input yields an empty list.
-/

/-- EMA recursion after the seed. -/
def emaRun (k : Frac) : Frac → List Frac → List Frac
  | _, [] => []
  | prev, v :: rest =>
    let e := (v - prev) * k + prev
    e :: emaRun k e rest

/-- Modelled from the spec: EMA of the technicalindicators package,
multiplier 2/(period+1), seeded with the first value, output aligned with
the input. -/
def emaLib (period : ℕ) (values : List Frac) : List Frac :=
  match values with
  | [] => []
  | v :: rest => v :: emaRun (ofInt 2 / ofInt (period + 1)) v rest

/-- Simple moving average sequence over sliding windows. -/
def smaList (p : ℕ) (values : List Frac) : List Frac :=
  (slidingWindows p values).map (fun w => sumF w / ofInt p)

/-- Consecutive differences next - previous. -/
def diffsF (values : List Frac) : List Frac :=
  List.zipWith (fun nxt prev => nxt - prev) (values.drop 1) values

/-- RSI from a Wilder average gain and average loss; an all-gain window
has average loss 0 and RSI 100. -/
def rsiOfAvg (g l : Frac) : Frac :=
  if l.beq 0 then ofInt 100 else ofInt 100 - ofInt 100 / (1 + g / l)

/-- Wilder smoothing of the gain/loss averages over the remaining
differences, emitting the RSI value of every step. -/
def rsiRun (p : Frac) : Frac × Frac → List Frac → List Frac
  | _, [] => []
  | (g, l), dv :: rest =>
    let g2 := (g * (p - 1) + fmax dv 0) / p
    let l2 := (l * (p - 1) + fmax (-dv) 0) / p
    rsiOfAvg g2 l2 :: rsiRun p (g2, l2) rest

/-- Modelled from the spec: RSI of the technicalindicators package,
period-length seed averages followed by Wilder smoothing; the output has
length (input length - period). -/
def rsiLib (period : ℕ) (values : List Frac) : List Frac :=
  let ds := diffsF values
  if ds.length < period then []
  else
    let seedG := sumF ((ds.take period).map (fun dv => fmax dv 0)) / ofInt period
    let seedL := sumF ((ds.take period).map (fun dv => fmax (-dv) 0)) / ofInt period
    rsiOfAvg seedG seedL :: rsiRun (ofInt period) (seedG, seedL) (ds.drop period)

structure StochOut where
  k : Frac
  d : Frac
deriving Repr

/-- Modelled from the spec: Stochastic RSI with rsiPeriod 14,
stochasticPeriod 14, kPeriod 3 and dPeriod 3; the raw stochastic is the
min-max normalised RSI (scaled to 0..100), K and D are 3-bar simple
moving averages.  A window whose RSI is constant divides by zero; the
concrete inputs of this development avoid that case. -/
def stochRsiLib (values : List Frac) : List StochOut :=
  let rsiL := rsiLib 14 values
  let raw := (slidingWindows 14 rsiL).map (fun w =>
    let mn := jsOr (listMinO w) 0
    let mx := jsOr (listMaxO w) 0
    ((w.getLastD 0 - mn) / (mx - mn)) * ofInt 100)
  let kL := smaList 3 raw
  let dL := smaList 3 kL
  List.zipWith (fun kv dv => StochOut.mk kv dv) (kL.drop (kL.length - dL.length)) dL

structure BBOut where
  middle : Frac
  upper : Frac
  lower : Frac
deriving Repr

/-- Modelled from the spec: Bollinger Bands, middle = SMA(period), bands
= middle plus/minus stdDev times the population standard deviation of the
window. -/
def bollingerLib (period : ℕ) (stdDev : ℤ) (values : List Frac) : List BBOut :=
  (slidingWindows period values).map (fun w =>
    let m := meanF w
    let variance := meanF (w.map (fun x => (x - m) * (x - m)))
    let s := sqrtF variance
    { middle := m, upper := m + ofInt stdDev * s, lower := m - ofInt stdDev * s })

structure MACDOut where
  macd : Frac
  signal : Option Frac
  histogram : Option Frac
deriving Repr

/-- Modelled from the spec: MACD(12, 26, 9); the MACD line is fast EMA
minus slow EMA and is produced once 26 values are available, the signal
line is the 9-period EMA of the MACD line and is reported (together with
the histogram = MACD - signal) only from its ninth entry onward, matching
the undefined early fields of the library output. -/
def macdLib (values : List Frac) : List MACDOut :=
  if values.length < 26 then []
  else
    let eF := emaLib 12 values
    let eS := emaLib 26 values
    let macdSeq := List.zipWith (fun f s => f - s) (eF.drop 25) (eS.drop 25)
    let sig := emaLib 9 macdSeq
    (List.range macdSeq.length).map (fun j =>
      { macd := macdSeq.getD j 0,
        signal := if 8 ≤ j then some (sig.getD j 0) else none,
        histogram := if 8 ≤ j then some (macdSeq.getD j 0 - sig.getD j 0) else none })

/-
  Helper functions of src/src/prediction.ts, translated from the source.
-/

/-- calculateEMA, src/src/prediction.ts lines 67-92.  The inputs of this
development are plain numbers, so the NaN filter keeps every value; with
fewer values than the period the function returns an all-NaN list
(modelled by none), otherwise it calls the library EMA with period
min(period, length - 1). -/
def calculateEMA (values : List Frac) (period : ℕ) : List (Option Frac) :=
  match values with
  | [] => []
  | _ :: _ =>
    if values.length < period then values.map (fun _ => none)
    else (emaLib (min period (values.length - 1)) values).map some

/-- OBV recursion, src/src/prediction.ts lines 728-739. -/
def obvAux (prevClose prevObv : Frac) : List Frac → List Frac → List Frac
  | c :: cs, v :: vs =>
    let nxt :=
      if c.bgt prevClose then prevObv + v
      else if c.blt prevClose then prevObv - v
      else prevObv
    nxt :: obvAux c nxt cs vs
  | _, _ => []

/-- calculateOBV, src/src/prediction.ts lines 724-742; seeded at 0. -/
def calculateOBV (closes volumes : List Frac) : List Frac :=
  match closes, volumes with
  | c0 :: cs, _ :: vs => 0 :: obvAux c0 0 cs vs
  | _, _ => [0]

structure ADXOut where
  adx : Frac
  plusDI : Frac
  minusDI : Frac
deriving Repr

/-- True range of one bar given the previous bar,
src/src/prediction.ts lines 763-767 and 968-977. -/
def trueRange (prev cur : Candle) : Frac :=
  fmax (cur.high - cur.low) (fmax ((cur.high - prev.close).abs) ((cur.low - prev.close).abs))

/-- Directional movement of one bar, src/src/prediction.ts lines 769-782. -/
def dmOf (prev cur : Candle) : Frac × Frac :=
  let upMove := cur.high - prev.high
  let downMove := prev.low - cur.low
  if upMove.bgt downMove && upMove.bgt 0 then (upMove, 0)
  else if downMove.bgt upMove && downMove.bgt 0 then (0, downMove) else (0, 0)

/-- Wilder smoothing loop of calculateADX,
src/src/prediction.ts lines 802-820.  A zero smoothed true range makes
the JavaScript source produce NaN directional indices whose comparisons
are all false; the model divides to 0, whose comparisons agree. -/
def adxLoop (p : Frac) : Frac × Frac × Frac × Frac → List (Frac × Frac × Frac) → List ADXOut
  | _, [] => []
  | (sTR, sP, sM, adx), (t, pd, md) :: rest =>
    let sTR2 := sTR - sTR / p + t
    let sP2 := sP - sP / p + pd
    let sM2 := sM - sM / p + md
    let pDI := sP2 / sTR2 * ofInt 100
    let mDI := sM2 / sTR2 * ofInt 100
    let dx := ((pDI - mDI) / (pDI + mDI)).abs * ofInt 100
    let adx2 := (adx * (p - 1) + dx) / p
    ⟨adx2, pDI, mDI⟩ :: adxLoop p (sTR2, sP2, sM2, adx2) rest

/-- calculateADX, src/src/prediction.ts lines 744-823. -/
def calculateADX (candles : List Candle) (period : ℕ) : List ADXOut :=
  if candles.length < period + 1 then [⟨0, 0, 0⟩]
  else
    let pairs := candles.zip (candles.drop 1)
    let tr := pairs.map (fun pc => trueRange pc.1 pc.2)
    let pdm := pairs.map (fun pc => (dmOf pc.1 pc.2).1)
    let mdm := pairs.map (fun pc => (dmOf pc.1 pc.2).2)
    let sTR := sumF (tr.take period)
    let sP := sumF (pdm.take period)
    let sM := sumF (mdm.take period)
    let pDI := sP / sTR * ofInt 100
    let mDI := sM / sTR * ofInt 100
    let dx := ((pDI - mDI) / (pDI + mDI)).abs * ofInt 100
    let rest := List.zipWith (fun t pm => (t, pm.1, pm.2)) (tr.drop period)
      (List.zipWith (fun a b => (a, b)) (pdm.drop period) (mdm.drop period))
    ⟨dx, pDI, mDI⟩ :: adxLoop (ofInt period) (sTR, sP, sM, dx) rest

inductive TrendDir where
  | up
  | down
deriving DecidableEq, Repr

/-- checkTrendPattern, src/src/prediction.ts lines 826-856. -/
def checkTrendPattern (candles : List Candle) (dir : TrendDir) (periods : ℕ) : Bool :=
  if candles.length < periods then false
  else
    let recent := candles.drop (candles.length - periods)
    let pairs := recent.zip (recent.drop 1)
    match dir with
    | .up =>
      let hh := (pairs.filter (fun pc => pc.2.high.bgt pc.1.high)).length
      let hl := (pairs.filter (fun pc => pc.2.low.bgt pc.1.low)).length
      (ofInt hh / ofInt (periods - 1)).bge (q 6 10) &&
        (ofInt hl / ofInt (periods - 1)).bge (q 1 2)
    | .down =>
      let lh := (pairs.filter (fun pc => pc.2.high.blt pc.1.high)).length
      let ll := (pairs.filter (fun pc => pc.2.low.blt pc.1.low)).length
      (ofInt lh / ofInt (periods - 1)).bge (q 6 10) &&
        (ofInt ll / ofInt (periods - 1)).bge (q 1 2)

structure SRLevels where
  support : List Frac
  resistance : List Frac
deriving Repr

/-- Cluster accumulation of clusterLevels,
src/src/prediction.ts lines 929-947: the distance test compares against
the previous raw level, not against the cluster average. -/
def clusterAux : List Frac → Frac → List Frac → List Frac → List Frac
  | [], _, cluster, acc => acc ++ [meanF cluster]
  | c :: cs, prev, cluster, acc =>
    if ((c - prev) / prev).blt (q 5 1000) then clusterAux cs c (cluster ++ [c]) acc
    else clusterAux cs c [c] (acc ++ [meanF cluster])

/-- clusterLevels, src/src/prediction.ts lines 924-949. -/
def clusterLevels (levels : List Frac) : List Frac :=
  if levels.length ≤ 1 then levels
  else
    match sortF levels with
    | [] => []
    | l0 :: rest => clusterAux rest l0 [l0] []

/-- findSupportResistanceLevels, src/src/prediction.ts lines 859-955. -/
def findSupportResistanceLevels (candles : List Candle) (lookback : ℕ) : SRLevels :=
  if candles.length < lookback then ⟨[], []⟩
  else
    let recent := candles.drop (candles.length - lookback)
    let swing := 3
    let idxs := List.range' swing (recent.length - 2 * swing)
    let lowAt := fun j => (recent.getD j zeroCandle).low
    let highAt := fun j => (recent.getD j zeroCandle).high
    let supports := idxs.filterMap (fun i =>
      let li := lowAt i
      if li.blt (lowAt (i - 1)) && li.blt (lowAt (i + 1)) &&
          (List.range' (i - swing) swing).all (fun j => (lowAt j).bgt li) &&
          (List.range' (i + 1) swing).all (fun j => (lowAt j).bgt li)
      then some li else none)
    let resistances := idxs.filterMap (fun i =>
      let hi := highAt i
      if hi.bgt (highAt (i - 1)) && hi.bgt (highAt (i + 1)) &&
          (List.range' (i - swing) swing).all (fun j => (highAt j).blt hi) &&
          (List.range' (i + 1) swing).all (fun j => (highAt j).blt hi)
      then some hi else none)
    ⟨clusterLevels supports, clusterLevels resistances⟩

/-- calculateATR, src/src/prediction.ts lines 957-1006.  The source does
this arithmetic in js-big-decimal; the model computes the same values
exactly (spec section 9 requires the arbitrary precision arithmetic to be
preserved). -/
def calculateATR (candles : List Candle) (period : ℕ) : Frac :=
  if candles.length < period + 1 then 0
  else
    let trs := (candles.zip (candles.drop 1)).map (fun pc => trueRange pc.1 pc.2)
    if trs.length ≤ period then sumF trs / ofInt trs.length
    else
      let seed := sumF (trs.take period) / ofInt period
      (trs.drop period).foldl (fun atr t => (atr * ofInt (period - 1) + t) / ofInt period) seed

/-- Rate-of-change sequence computed inline by the mean-reversion
strategy, src/src/prediction.ts lines 363-369. -/
def rocListOf (closes : List Frac) : List Frac :=
  (List.range' 9 (closes.length - 9)).map (fun i =>
    ((closes.getD i 0 - closes.getD (i - 9) 0) / closes.getD (i - 9) 0) * ofInt 100)

/-
  Rounding.  Number(x.toFixed(2)) rounds to the nearest multiple of
  1/100; an exact tie picks the larger candidate (toward plus infinity),
  which floor(100 x + 1/2)/100 reproduces.
-/

def ffloor (x : Frac) : ℤ := Int.fdiv x.n x.d

def roundTo (k : ℕ) (x : Frac) : Frac :=
  q (ffloor (x * ofInt ((10 : ℤ) ^ k) + q 1 2)) ((10 : ℤ) ^ k)

def round2 (x : Frac) : Frac := roundTo 2 x

/-- Number(x.toFixed(2)) on an extended number:
Number(Infinity.toFixed(2)) is Infinity. -/
def extRound2 (x : JsExtF) : JsExtF :=
  match x with
  | .fin v => .fin (round2 v)
  | .inf => .inf

/-
  Trend following strategy, src/src/prediction.ts lines 94-317.
  The intermediate quantities of execute are gathered in TrendCtx; the
  later definitions mirror the blocks of the function body.  The wall
  clock enters the output only through the timestamp field (Date.now at
  line 295).
-/

structure TrendCtx where
  sentiment : Frac
  currentPrice : Frac
  latestMACD : Option MACDOut
  latestRSI : Option Frac
  latestEMA20 : Option Frac
  latestEMA50 : Option Frac
  latestEMA100 : Option Frac
  latestEMA200 : Option Frac
  isAbove20 : Bool
  isAbove50 : Bool
  isAbove100 : Bool
  isAbove200 : Bool
  isUptrend : Bool
  isDowntrend : Bool
  adxValue : Frac
  plusDI : Frac
  minusDI : Frac
  volumeChange : Frac
  atr : Frac
  volaRel : Frac
  bullishCount : ℤ
deriving Repr

/-- Indicator evaluation and signal counting of the trend strategy,
src/src/prediction.ts lines 102-212.  volaRel is the volatilityRatio of
line 151. -/
def trendCtx (md : MarketData) : TrendCtx :=
  let candles := md.candles
  let closes := candles.map (fun c => c.close)
  let volumes := candles.map (fun c => c.volume)
  let currentPrice := closes.getLastD 0
  let macdValues := macdLib closes
  let rsiValues := rsiLib 14 closes
  let ema20 := calculateEMA closes 20
  let ema50 := calculateEMA closes 50
  let ema100 := calculateEMA closes 100
  let ema200 := calculateEMA closes (min 200 (closes.length * 3 / 4))
  let obvValues := calculateOBV closes volumes
  let volumeEMA := calculateEMA volumes 20
  let latestVolumeEMA := jsOr (volumeEMA.getLast?.join) (volumes.getLastD 0)
  let latestVolume := volumes.getLastD 0
  let volumeChange := latestVolume / latestVolumeEMA
  let lastADX := (calculateADX candles 14).getLastD ⟨0, 0, 0⟩
  let isUptrend := checkTrendPattern candles .up 5
  let isDowntrend := checkTrendPattern candles .down 5
  let atr := calculateATR candles 14
  let volaRel := atr / currentPrice
  let latestMACD := macdValues.getLast?
  let latestRSI := rsiValues.getLast?
  let latestEMA20 := ema20.getLast?.join
  let latestEMA50 := ema50.getLast?.join
  let latestEMA100 := ema100.getLast?.join
  let latestEMA200 := ema200.getLast?.join
  let isAbove20 := latestEMA20.isSome && currentPrice.bgt (jsOr latestEMA20 currentPrice)
  let isAbove50 := latestEMA50.isSome && currentPrice.bgt (jsOr latestEMA50 currentPrice)
  let isAbove100 := latestEMA100.isSome && currentPrice.bgt (jsOr latestEMA100 currentPrice)
  let isAbove200 := latestEMA200.isSome && currentPrice.bgt (jsOr latestEMA200 currentPrice)
  let isPriceRising := decide (3 < closes.length) &&
    (closes.getD (closes.length - 1) 0).bgt (closes.getD (closes.length - 3) 0)
  let isFastEMARising :=
    match latestEMA20 with
    | none => false
    | some e => decide (3 < ema20.length) && e.bgt (jsOr (ema20.getD (ema20.length - 3) none) e)
  let isVolumeRising := volumeChange.bgt (q 11 10)
  let isOBVRising := decide (3 < obvValues.length) &&
    (obvValues.getD (obvValues.length - 1) 0).bgt (obvValues.getD (obvValues.length - 3) 0)
  let bullishCount : ℤ :=
    (if isUptrend then 2 else 0) +
    (if isAbove20 then 1 else 0) +
    (if isAbove50 then 1 else 0) +
    (if isAbove100 then 1 else 0) +
    (if isAbove200 then 2 else 0) +
    (if isPriceRising then 1 else 0) +
    (if isFastEMARising then 1 else 0) +
    (if oGt (latestMACD.bind (fun m => m.histogram)) 0 then 1 else 0) +
    (if (match latestMACD with | some m => oGtO (some m.macd) m.signal | none => false)
      then 1 else 0) +
    (if oGt latestRSI 50 && oLt latestRSI 70 then 1 else 0) +
    (if lastADX.plusDI.bgt lastADX.minusDI then 1 else 0) +
    (if lastADX.adx.bgt (ofInt 25) then 1 else 0) +
    (if isVolumeRising && isPriceRising then 1 else 0) +
    (if isOBVRising then 1 else 0) +
    (if md.marketSentiment.bgt (q 3 10) then 1 else 0) -
    (if md.marketSentiment.blt (q (-3) 10) then 1 else 0)
  { sentiment := md.marketSentiment, currentPrice := currentPrice,
    latestMACD := latestMACD, latestRSI := latestRSI,
    latestEMA20 := latestEMA20, latestEMA50 := latestEMA50,
    latestEMA100 := latestEMA100, latestEMA200 := latestEMA200,
    isAbove20 := isAbove20, isAbove50 := isAbove50,
    isAbove100 := isAbove100, isAbove200 := isAbove200,
    isUptrend := isUptrend, isDowntrend := isDowntrend,
    adxValue := lastADX.adx, plusDI := lastADX.plusDI, minusDI := lastADX.minusDI,
    volumeChange := volumeChange, atr := atr, volaRel := volaRel,
    bullishCount := bullishCount }

/-- Direction thresholds of src/src/prediction.ts lines 218 and 233:
long needs at least 60 percent of the 18 possible bullish signals,
short at most 35 percent. -/
def trendDirection (c : TrendCtx) : Direction :=
  if (ofInt c.bullishCount).bge (q 54 5) then .long
  else if (ofInt c.bullishCount).ble (q 63 10) then .short
  else .neutral

/-- Confidence before the final clamp, src/src/prediction.ts lines
214-252, including the high volatility penalty of line 250. -/
def trendConfRaw (c : TrendCtx) : Frac :=
  let hist := jsOr (c.latestMACD.bind (fun m => m.histogram)) 0
  let base :=
    if (ofInt c.bullishCount).bge (q 54 5) then
      q 1 2 + (ofInt c.bullishCount / ofInt 18) * (q 2 5) +
        fmin (q 1 10) ((hist / ofInt 15).abs) +
        (if oGt c.latestRSI (ofInt 40) && oLt c.latestRSI (ofInt 70) then q 1 20 else 0) +
        (if c.adxValue.bgt (ofInt 30) then q 1 20 else 0) +
        c.sentiment * q 1 10
    else if (ofInt c.bullishCount).ble (q 63 10) then
      q 1 2 + ((ofInt 18 - ofInt c.bullishCount) / ofInt 18) * (q 2 5) +
        fmin (q 1 10) ((hist / ofInt 15).abs) +
        (if oGt c.latestRSI (ofInt 30) && oLt c.latestRSI (ofInt 60) then q 1 20 else 0) +
        (if c.adxValue.bgt (ofInt 30) then q 1 20 else 0) -
        c.sentiment * q 1 10
    else q 1 2
  if c.volaRel.bgt (q 3 100) then base * (q 9 10) else base

/-- Clamp of src/src/prediction.ts line 255. -/
def trendConfidence (c : TrendCtx) : Frac :=
  fmin (fmax (trendConfRaw c) 0) (q 19 20)

/-- Unrounded target price, src/src/prediction.ts lines 258-279. -/
def trendTargetRaw (c : TrendCtx) : Frac :=
  match trendDirection c with
  | .long => c.currentPrice + c.atr * (q 3 2 + trendConfidence c + c.volaRel * ofInt 10)
  | .short => c.currentPrice + c.atr * (q (-3) 2 - trendConfidence c - c.volaRel * ofInt 10)
  | .neutral => c.currentPrice + c.atr * ofInt 1

/-- Unrounded stop loss, src/src/prediction.ts lines 258-279. -/
def trendStopRaw (c : TrendCtx) : Frac :=
  match trendDirection c with
  | .long => c.currentPrice + c.atr * ofInt (-1)
  | .short => c.currentPrice + c.atr * ofInt 1
  | .neutral => c.currentPrice + c.atr * (q (-1) 2)

/-- historicalAccuracy, src/src/prediction.ts lines 287-290. -/
def trendAccuracy (c : TrendCtx) : Frac :=
  if trendDirection c ≠ Direction.neutral then
    q 19 25 + (trendConfidence c - q 1 2) / ofInt 5
  else q 19 25

def colGreen : String := "#26a69a"

def colRed : String := "#ef5350"

def colGray : String := "#b2b5be"

/-- Indicator list of the trend prediction,
src/src/prediction.ts lines 302-312. -/
def trendIndicators (c : TrendCtx) : List IndicatorOut :=
  let hist := c.latestMACD.bind (fun m => m.histogram)
  [ { name := "MACD", value := some (jsOr hist 0),
      color := if oGt hist 0 then colGreen else colRed },
    { name := "RSI", value := c.latestRSI,
      color := if oGt c.latestRSI (ofInt 70) then colRed
        else if oLt c.latestRSI (ofInt 30) then colGreen else colGray },
    { name := "EMA20", value := c.latestEMA20,
      color := if c.isAbove20 then colGreen else colRed },
    { name := "EMA50", value := c.latestEMA50,
      color := if c.isAbove50 then colGreen else colRed },
    { name := "EMA200", value := c.latestEMA200,
      color := if c.isAbove200 then colGreen else colRed },
    { name := "ADX", value := some c.adxValue,
      color := if c.adxValue.bgt (ofInt 25) then colGreen else colGray },
    { name := "Volume Change", value := some c.volumeChange,
      color := if c.volumeChange.bgt (ofInt 1) then colGreen else colRed },
    { name := "ATR", value := some c.atr, color := colGray },
    { name := "Market Sentiment", value := some c.sentiment,
      color := if c.sentiment.bgt 0 then colGreen
        else if c.sentiment.blt 0 then colRed else colGray } ]

/-- The prediction component of the trend strategy output; it does not
depend on the wall clock, and both its prices are finite. -/
def trendPredictionOf (md : MarketData) : PredictionE :=
  let c := trendCtx md
  { direction := trendDirection c,
    confidence := trendConfidence c,
    targetPrice := round2 (trendTargetRaw c),
    stopLoss := .fin (round2 (trendStopRaw c)),
    indicators := trendIndicators c }

/-- trendFollowingStrategy.execute, src/src/prediction.ts lines 102-316.
The function never throws on nonempty candle input: every indicator it
reads is guarded by optional chaining, or-else fallbacks or isNaN
checks. -/
def trendExec (md : MarketData) (clock : Clock) : PredictionResultE :=
  let c := trendCtx md
  { symbol := md.symbol, timeframe := md.timeframe, timestamp := clock.now,
    currentPrice := c.currentPrice,
    prediction := trendPredictionOf md,
    historicalAccuracy := trendAccuracy c }

/-
  Mean reversion strategy, src/src/prediction.ts lines 319-525.
  Execution can throw: reading latestBB.upper when the Bollinger list is
  empty (line 385, candles shorter than 20), the js-big-decimal divide
  by zero when the upper band equals the lower band (line 392), and
  reading latestStochRSI.k when the stochastic list is empty (first
  reached at line 402 or in the indicator list at line 513).  The model
  checks the three conditions in that order; every path of the source
  that passes the first two and has an empty stochastic list throws a
  TypeError before returning.
-/

/-- A JavaScript number read from a value that is defined on every
reachable path (the stochastic list is nonempty only when the RSI list
is); the fallback 0 is never observed. -/
def forcedNum (v : Option Frac) : Frac := v.getD 0

/-- Pure intermediate values of the mean reversion strategy,
src/src/prediction.ts lines 328-379, 434 and 453. -/
structure MRPure where
  currentPrice : Frac
  sentiment : Frac
  volumeRel : Frac
  latestRSI : Option Frac
  latestROC : Option Frac
  sr : SRLevels
  isNearSupport : Bool
  isNearResistance : Bool
  priceChangeRel : Frac
  atr : Frac
deriving Repr

/-- volumeRatio, RSI, rate of change, support/resistance distances and
ATR of the mean reversion strategy (volumeRel is the volumeRatio of line
357, priceChangeRel the priceChangeRatio of line 434). -/
def mrPure (md : MarketData) : MRPure :=
  let candles := md.candles
  let closes := candles.map (fun c => c.close)
  let volumes := candles.map (fun c => c.volume)
  let currentPrice := closes.getLastD 0
  let volumeEMA := calculateEMA volumes 20
  let latestVolumeEMA := jsOr (volumeEMA.getLast?.join) (volumes.getLastD 0)
  let volumeRel := volumes.getLastD 0 / latestVolumeEMA
  let latestRSI := (rsiLib 14 closes).getLast?
  let latestROC := (rocListOf closes).getLast?
  let sr := findSupportResistanceLevels candles 20
  let distanceToSupport := listMinO (sr.support.map (fun level =>
    (currentPrice - level).abs / currentPrice * ofInt 100))
  let distanceToResistance := listMinO (sr.resistance.map (fun level =>
    (currentPrice - level).abs / currentPrice * ofInt 100))
  let isNearSupport := oLt distanceToSupport (ofInt 1)
  let isNearResistance := oLt distanceToResistance (ofInt 1)
  let priceChangeRel := (closes.getD (closes.length - 1) 0 - closes.getD (closes.length - 2) 0) /
    closes.getD (closes.length - 2) 0
  { currentPrice := currentPrice, sentiment := md.marketSentiment,
    volumeRel := volumeRel, latestRSI := latestRSI, latestROC := latestROC,
    sr := sr, isNearSupport := isNearSupport, isNearResistance := isNearResistance,
    priceChangeRel := priceChangeRel, atr := calculateATR candles 14 }

/-- The values guarded by runtime errors: the newest Bollinger entry, the
percent-B value and the newest stochastic RSI entry. -/
structure MRCtx where
  latestBB : BBOut
  percentB : Frac
  st : StochOut
deriving Repr

/-- The error checks of the mean reversion strategy in source order:
undefined Bollinger entry (line 385), divide by zero in percent B (line
392, js-big-decimal divide throws on a zero divisor), undefined
stochastic entry (lines 402-420 and 513). -/
def meanRevCore (md : MarketData) : Except JsErr MRCtx :=
  let closes := md.candles.map (fun c => c.close)
  let currentPrice := closes.getLastD 0
  match (bollingerLib 20 2 closes).getLast? with
  | none => .error (.typeError "reading upper of undefined latestBB")
  | some latestBB =>
    if (latestBB.upper - latestBB.lower).beq 0 then .error .divideByZero
    else
      let percentB := (currentPrice - latestBB.lower) / (latestBB.upper - latestBB.lower)
      match (stochRsiLib closes).getLast? with
      | none => .error (.typeError "reading k of undefined latestStochRSI")
      | some st => .ok { latestBB := latestBB, percentB := percentB, st := st }

/-- Oversold test, src/src/prediction.ts line 402. -/
def mrIsOversold (p : MRPure) (c : MRCtx) : Bool :=
  c.percentB.blt (q 15 100) || oLt p.latestRSI (ofInt 30) || c.st.k.blt (ofInt 20)

/-- Overbought test, src/src/prediction.ts line 404. -/
def mrIsOverbought (p : MRPure) (c : MRCtx) : Bool :=
  c.percentB.bgt (q 85 100) || oGt p.latestRSI (ofInt 70) || c.st.k.bgt (ofInt 80)

/-- Direction of the mean reversion strategy,
src/src/prediction.ts lines 407 and 420. -/
def mrDirection (p : MRPure) (c : MRCtx) : Direction :=
  if mrIsOversold p c && (c.st.k.bgt c.st.d || oGt p.latestROC (q (-1) 2)) then .long
  else if mrIsOverbought p c && (c.st.k.blt c.st.d || oLt p.latestROC (q 1 2)) then .short
  else .neutral

/-- Bollinger band width, src/src/prediction.ts line 395. -/
def mrBBWidth (c : MRCtx) : Frac :=
  (c.latestBB.upper - c.latestBB.lower) / c.latestBB.middle

/-- Confidence before the final clamp,
src/src/prediction.ts lines 397-447, including the move-toward-mean
bonus and the band width adjustment. -/
def mrConfRaw (p : MRPure) (c : MRCtx) : Frac :=
  let rsiN := forcedNum p.latestRSI
  let base :=
    if mrIsOversold p c && (c.st.k.bgt c.st.d || oGt p.latestROC (q (-1) 2)) then
      q 13 20 +
        fmin (q 3 20) ((q 3 20 - fmax 0 c.percentB) * ofInt 2) +
        fmin (q 1 10) ((ofInt 30 - fmax 0 rsiN) / ofInt 100) +
        fmin (q 1 10) ((ofInt 20 - fmax 0 c.st.k) / ofInt 100) +
        (if p.volumeRel.bgt (q 6 5) then q 1 20 else 0) +
        (if p.isNearSupport then q 1 10 else 0) +
        p.sentiment * q 1 20
    else if mrIsOverbought p c && (c.st.k.blt c.st.d || oLt p.latestROC (q 1 2)) then
      q 13 20 +
        fmin (q 3 20) ((fmin (ofInt 1) c.percentB - q 17 20) * ofInt 2) +
        fmin (q 1 10) ((fmax 0 rsiN - ofInt 70) / ofInt 100) +
        fmin (q 1 10) ((fmax 0 c.st.k - ofInt 80) / ofInt 100) +
        (if p.volumeRel.bgt (q 6 5) then q 1 20 else 0) +
        (if p.isNearResistance then q 1 10 else 0) -
        p.sentiment * q 1 20
    else q 1 2
  let withMove :=
    if mrDirection p c = Direction.long && p.priceChangeRel.bgt 0 then base + q 1 20
    else if mrDirection p c = Direction.short && p.priceChangeRel.blt 0 then base + q 1 20
    else base
  if (mrBBWidth c).blt (q 5 100) then withMove * (q 11 10)
  else if (mrBBWidth c).bgt (q 6 100) then withMove * (q 9 10)
  else withMove

/-- Clamp of src/src/prediction.ts line 450. -/
def mrConfidence (p : MRPure) (c : MRCtx) : Frac :=
  fmin (fmax (mrConfRaw p c) 0) (q 19 20)

/-- Unrounded target price, src/src/prediction.ts lines 457-491: the
middle band for every direction. -/
def mrTargetRaw (c : MRCtx) : Frac := c.latestBB.middle

/-- Unrounded stop loss, src/src/prediction.ts lines 457-491.  In the
neutral arm the source picks between 0.98 and 1.02 of the price with a
ternary on direction that is always neutral there, so the 1.02 side is
taken.  In the long arm, Math.max over an empty filtered spread is
-Infinity and fails the > 0 guard of line 468, leaving the stop
unchanged.  In the short arm, a near resistance level with no level
strictly above the price makes Math.min over the empty spread Infinity
(line 480); Infinity passes the > 0 guard of line 481 and
Math.max(stop, Infinity * 1.01) of line 482 sets the stop to
Infinity. -/
def mrStopRaw (p : MRPure) (c : MRCtx) : JsExtF :=
  match mrDirection p c with
  | .long =>
    let stop := p.currentPrice - p.atr * q 3 2
    if p.isNearSupport then
      match listMaxO (p.sr.support.filter (fun s => s.blt p.currentPrice)) with
      | none => .fin stop
      | some ns => if ns.bgt 0 then .fin (fmin stop (ns * q 99 100)) else .fin stop
    else .fin stop
  | .short =>
    let stop := p.currentPrice + p.atr * q 3 2
    if p.isNearResistance then
      match listMinO (p.sr.resistance.filter (fun r => r.bgt p.currentPrice)) with
      | none => .inf
      | some nr => if nr.bgt 0 then .fin (fmax stop (nr * q 101 100)) else .fin stop
    else .fin stop
  | .neutral => .fin (p.currentPrice * q 102 100)

/-- historicalAccuracy, src/src/prediction.ts lines 494-497. -/
def mrAccuracy (p : MRPure) (c : MRCtx) : Frac :=
  if mrDirection p c ≠ Direction.neutral then
    q 18 25 + (mrConfidence p c - q 1 2) / ofInt 10
  else q 18 25

def colYellow : String := "#f0b90b"

/-- Indicator list of the mean reversion prediction,
src/src/prediction.ts lines 509-520. -/
def mrIndicators (p : MRPure) (c : MRCtx) : List IndicatorOut :=
  [ { name := "BB Upper", value := some c.latestBB.upper, color := colGray },
    { name := "BB Middle", value := some c.latestBB.middle, color := colGray },
    { name := "BB Lower", value := some c.latestBB.lower, color := colGray },
    { name := "StochRSI K", value := some c.st.k,
      color := if c.st.k.bgt (ofInt 80) then colRed
        else if c.st.k.blt (ofInt 20) then colGreen else colGray },
    { name := "StochRSI D", value := some c.st.d, color := colYellow },
    { name := "RSI", value := p.latestRSI,
      color := if oGt p.latestRSI (ofInt 70) then colRed
        else if oLt p.latestRSI (ofInt 30) then colGreen else colGray },
    { name := "Percent B", value := some c.percentB,
      color := if c.percentB.bgt (q 4 5) then colRed
        else if c.percentB.blt (q 1 5) then colGreen else colGray },
    { name := "Volume Ratio", value := some p.volumeRel,
      color := if p.volumeRel.bgt (q 6 5) then colGreen else colGray },
    { name := "BB Width", value := some (mrBBWidth c), color := colGray },
    { name := "Market Sentiment", value := some p.sentiment,
      color := if p.sentiment.bgt 0 then colGreen
        else if p.sentiment.blt 0 then colRed else colGray } ]

/-- The prediction component of the mean reversion output for a
successfully checked context; it does not depend on the wall clock. -/
def mrPredictionOf (p : MRPure) (c : MRCtx) : PredictionE :=
  { direction := mrDirection p c,
    confidence := mrConfidence p c,
    targetPrice := round2 (mrTargetRaw c),
    stopLoss := extRound2 (mrStopRaw p c),
    indicators := mrIndicators p c }

/-- meanReversionStrategy.execute, src/src/prediction.ts lines 327-524. -/
def meanRevExec (md : MarketData) (clock : Clock) : Except JsErr PredictionResultE :=
  match meanRevCore md with
  | .error e => .error e
  | .ok c =>
    let p := mrPure md
    .ok { symbol := md.symbol, timeframe := md.timeframe, timestamp := clock.now,
          currentPrice := p.currentPrice,
          prediction := mrPredictionOf p c,
          historicalAccuracy := mrAccuracy p c }

/-
  ML enhanced strategy, src/src/prediction.ts lines 527-722: a
  deterministic blend of the two base strategies, with day-of-week and
  hour-of-day confidence multipliers (lines 640-658) that make its
  output depend on the wall clock.
-/

structure MLComb where
  direction : Direction
  confidence0 : Frac
  targetPrice : Frac
  stopLoss : JsExtF
  isTrending : Bool
  isRanging : Bool
  trendStrength : Frac
  bbWidth : Frac
deriving Repr

/-- Market regime classification and weighted blending,
src/src/prediction.ts lines 548-634; confidence0 is the confidence
before the seasonality and sentiment multipliers.  The stop of the mean
reversion input can be Infinity, which the weighted sum of lines 593 and
605 propagates. -/
def mlCombine (md : MarketData) (tp rp : PredictionResultE) (latestBB : BBOut) : MLComb :=
  let bbWidth := (latestBB.upper - latestBB.lower) / latestBB.middle
  let trendStrength := ((calculateADX md.candles 14).getLastD ⟨0, 0, 0⟩).adx
  let isTrending := trendStrength.bgt (ofInt 25)
  let isRanging := bbWidth.blt (q 5 100) && trendStrength.blt (ofInt 20)
  let tw := if isTrending then q 4 5 else if isRanging then q 1 5 else q 1 2
  let rw := if isTrending then q 1 5 else if isRanging then q 4 5 else q 1 2
  if tp.prediction.direction = Direction.long && rp.prediction.direction = Direction.long then
    { direction := .long,
      confidence0 := (tp.prediction.confidence * tw + rp.prediction.confidence * rw) * q 11 10,
      targetPrice := tp.prediction.targetPrice * tw + rp.prediction.targetPrice * rw,
      stopLoss := extWSum tp.prediction.stopLoss tw rp.prediction.stopLoss rw,
      isTrending := isTrending, isRanging := isRanging,
      trendStrength := trendStrength, bbWidth := bbWidth }
  else if tp.prediction.direction = Direction.short && rp.prediction.direction = Direction.short then
    { direction := .short,
      confidence0 := (tp.prediction.confidence * tw + rp.prediction.confidence * rw) * q 11 10,
      targetPrice := tp.prediction.targetPrice * tw + rp.prediction.targetPrice * rw,
      stopLoss := extWSum tp.prediction.stopLoss tw rp.prediction.stopLoss rw,
      isTrending := isTrending, isRanging := isRanging,
      trendStrength := trendStrength, bbWidth := bbWidth }
  else if isTrending then
    { direction := tp.prediction.direction,
      confidence0 := tp.prediction.confidence * q 19 20,
      targetPrice := tp.prediction.targetPrice, stopLoss := tp.prediction.stopLoss,
      isTrending := isTrending, isRanging := isRanging,
      trendStrength := trendStrength, bbWidth := bbWidth }
  else if isRanging then
    { direction := rp.prediction.direction,
      confidence0 := rp.prediction.confidence * q 19 20,
      targetPrice := rp.prediction.targetPrice, stopLoss := rp.prediction.stopLoss,
      isTrending := isTrending, isRanging := isRanging,
      trendStrength := trendStrength, bbWidth := bbWidth }
  else if tp.prediction.confidence.bgt rp.prediction.confidence then
    { direction := tp.prediction.direction,
      confidence0 := tp.prediction.confidence * q 9 10,
      targetPrice := tp.prediction.targetPrice, stopLoss := tp.prediction.stopLoss,
      isTrending := isTrending, isRanging := isRanging,
      trendStrength := trendStrength, bbWidth := bbWidth }
  else
    { direction := rp.prediction.direction,
      confidence0 := rp.prediction.confidence * q 9 10,
      targetPrice := rp.prediction.targetPrice, stopLoss := rp.prediction.stopLoss,
      isTrending := isTrending, isRanging := isRanging,
      trendStrength := trendStrength, bbWidth := bbWidth }

/-- Seasonality and sentiment multipliers,
src/src/prediction.ts lines 640-658: weekends scale every confidence by
0.95; Asian market hours scale a long confidence by 1.05; strong
sentiment in the trade direction scales by 1.05. -/
def mlTimeAdjust (day hour : ℕ) (dir : Direction) (sentiment conf : Frac) : Frac :=
  let c1 := if day = 0 || day = 6 then conf * q 19 20 else conf
  let c2 :=
    if 1 ≤ hour && hour ≤ 9 then (if dir = Direction.long then c1 * q 21 20 else c1) else c1
  if dir = Direction.long && sentiment.bgt (q 1 2) then c2 * q 21 20
  else if dir = Direction.short && sentiment.blt (q (-1) 2) then c2 * q 21 20
  else c2

/-- Final ML confidence: time and sentiment adjustments followed by the
clamp of src/src/prediction.ts line 661. -/
def mlConfidence (day hour : ℕ) (dir : Direction) (sentiment c0 : Frac) : Frac :=
  fmin (fmax (mlTimeAdjust day hour dir sentiment c0) 0) (q 19 20)

/-- Combined indicator list, src/src/prediction.ts lines 670-705; the
filters keep the original order of the sub-strategy indicator lists, and
the indicator values of this model are always single numbers so the
isArray branch never fires. -/
def mlIndicators (tp rp : PredictionResultE) (comb : MLComb) (sentiment : Frac) :
    List IndicatorOut :=
  let core : List IndicatorOut :=
    [ { name := "Market Regime",
        value := some (if comb.isTrending then ofInt 1
          else if comb.isRanging then ofInt (-1) else 0),
        color := if comb.isTrending then colGreen
          else if comb.isRanging then colRed else colGray },
      { name := "Trend Strength", value := some comb.trendStrength,
        color := if comb.trendStrength.bgt (ofInt 25) then colGreen else colGray },
      { name := "Volatility", value := some comb.bbWidth,
        color := if comb.bbWidth.bgt (q 6 100) then colRed else colGray },
      { name := "Sentiment", value := some sentiment,
        color := if sentiment.bgt 0 then colGreen
          else if sentiment.blt 0 then colRed else colGray } ]
  let fromTrend := (tp.prediction.indicators.filter (fun ind =>
      ["MACD", "RSI", "EMA50", "Volume Change"].contains ind.name)).map (fun ind =>
        { name := ind.name, value := ind.value, color := jsOrStr ind.color colGray })
  let fromRev := (rp.prediction.indicators.filter (fun ind =>
      ["BB Upper", "BB Lower", "StochRSI K", "Percent B"].contains ind.name)).map (fun ind =>
        { name := ind.name, value := ind.value, color := jsOrStr ind.color colGray })
  core ++ fromTrend ++ fromRev

/-- mlEnhancedStrategy.execute, src/src/prediction.ts lines 535-721.
The trend execute never throws, the mean reversion errors propagate, and
the Bollinger lookup of line 555 cannot fail once the mean reversion
succeeded (it needs at least 20 candles). -/
def mlExec (md : MarketData) (clock : Clock) : Except JsErr PredictionResultE :=
  let tp := trendExec md clock
  match meanRevExec md clock with
  | .error e => .error e
  | .ok rp =>
    let closes := md.candles.map (fun c => c.close)
    let currentPrice := closes.getLastD 0
    match (bollingerLib 20 2 closes).getLast? with
    | none => .error (.typeError "reading upper of undefined latestBB")
    | some latestBB =>
      let comb := mlCombine md tp rp latestBB
      let conf := mlConfidence clock.dayOfWeek clock.hourOfDay comb.direction
        md.marketSentiment comb.confidence0
      let baseAccuracy := fmax (jsOr (some tp.historicalAccuracy) (q 19 25))
        (jsOr (some rp.historicalAccuracy) (q 18 25))
      let adjustedAccuracy :=
        if comb.direction ≠ Direction.neutral then baseAccuracy + (conf - q 1 2) / ofInt 8
        else baseAccuracy
      .ok { symbol := md.symbol, timeframe := md.timeframe, timestamp := clock.now,
            currentPrice := currentPrice,
            prediction :=
              { direction := comb.direction,
                confidence := conf,
                targetPrice := round2 comb.targetPrice,
                stopLoss := extRound2 comb.stopLoss,
                indicators := mlIndicators tp rp comb md.marketSentiment },
            historicalAccuracy := adjustedAccuracy }

/-
  Backtest simulator, src/src/utils/backtest.ts lines 11-222.
  The strategy argument is any execute function; a raised exception is
  an error value.  The startDate/endDate fields of the source result are
  calendar strings derived from candle times and carry no claim content,
  so they are not modelled.
-/

/-- A strategy as the simulator consumes it.  The loop mechanics are
analysed over strategies whose emitted prices are plain finite numbers;
the modelled strategies above additionally record that the mean
reversion stop can be Infinity (PredictionResultE). -/
abbrev BStrategy := MarketData → Except JsErr PredictionResult

inductive ExitReason where
  | target
  | stop
  | signal
deriving DecidableEq, Repr

/-- A completed trade; every trade the simulator pushes carries an exit,
so the optional exit of the source type is always present. -/
structure Trade where
  entryTime : Frac
  entryPrice : Frac
  direction : Direction
  exitTime : Frac
  exitPrice : Frac
  reason : ExitReason
  profitLoss : Frac
  profitLossPercent : Frac
deriving Repr

/-- The activePosition object, src/src/utils/backtest.ts lines 24-33. -/
structure ActivePos where
  entryTimestamp : Frac
  entryPrice : Frac
  direction : Direction
  entryIndex : ℕ
  targetPrice : Frac
  stopLoss : Frac
deriving Repr

structure BTState where
  trades : List Trade
  pos : Option ActivePos
deriving Repr

def candleAt (md : MarketData) (i : ℕ) : Candle := md.candles.getD i zeroCandle

/-- The truncated market data handed to the strategy at index i:
candles.slice(0, i + 1), src/src/utils/backtest.ts lines 37-41. -/
def mdPre (md : MarketData) (i : ℕ) : MarketData :=
  { md with candles := md.candles.take (i + 1) }

/-- Entry check, src/src/utils/backtest.ts lines 156-176: invoke the
strategy on the prefix, open a position at this candle close when the
confidence exceeds 0.65 and the direction is not neutral; a thrown
strategy error is caught and leaves the state unchanged. -/
def entryCheck (strat : BStrategy) (md : MarketData) (i : ℕ) (s : BTState) : BTState :=
  match strat (mdPre md i) with
  | .error _ => s
  | .ok prediction =>
    if prediction.prediction.confidence.bgt (q 13 20) &&
        prediction.prediction.direction ≠ Direction.neutral then
      let ap : ActivePos :=
        { entryTimestamp := (candleAt md i).time,
          entryPrice := (candleAt md i).close,
          direction := prediction.prediction.direction,
          entryIndex := i,
          targetPrice := prediction.prediction.targetPrice,
          stopLoss := prediction.prediction.stopLoss }
      { s with pos := some ap }
    else s

/-- Exit handling for an open position at candle index i,
src/src/utils/backtest.ts lines 44-153.  The Bool result is true when
the loop body executed continue (a target or stop exit), skipping the
entry check of the same index. -/
def positionStep (md : MarketData) (i : ℕ) (ap : ActivePos) (trades : List Trade) :
    BTState × Bool :=
  let candle := candleAt md i
  let exitTrade : Frac → ExitReason → Frac → Trade := fun price reason pl =>
    { entryTime := ap.entryTimestamp, entryPrice := ap.entryPrice,
      direction := ap.direction, exitTime := candle.time, exitPrice := price,
      reason := reason, profitLoss := pl,
      profitLossPercent := pl / ap.entryPrice * ofInt 100 }
  let directional : Option (BTState × Bool) :=
    if ap.direction = Direction.long then
      if candle.high.bge ap.targetPrice then
        some (⟨trades ++ [exitTrade ap.targetPrice .target (ap.targetPrice - ap.entryPrice)],
          none⟩, true)
      else if candle.low.ble ap.stopLoss then
        some (⟨trades ++ [exitTrade ap.stopLoss .stop (ap.stopLoss - ap.entryPrice)],
          none⟩, true)
      else none
    else
      if candle.low.ble ap.targetPrice then
        some (⟨trades ++ [exitTrade ap.targetPrice .target (ap.entryPrice - ap.targetPrice)],
          none⟩, true)
      else if candle.high.bge ap.stopLoss then
        some (⟨trades ++ [exitTrade ap.stopLoss .stop (ap.entryPrice - ap.stopLoss)],
          none⟩, true)
      else none
  match directional with
  | some r => r
  | none =>
    if 10 ≤ i - ap.entryIndex then
      let exitPrice := candle.close
      let pnl :=
        if ap.direction = Direction.long then exitPrice - ap.entryPrice
        else ap.entryPrice - exitPrice
      (⟨trades ++ [exitTrade exitPrice .signal pnl], none⟩, false)
    else (⟨trades, some ap⟩, false)

/-- One iteration of the backtest loop body at candle index i,
src/src/utils/backtest.ts lines 36-177. -/
def stepOnce (strat : BStrategy) (md : MarketData) (s : BTState) (i : ℕ) : BTState :=
  match s.pos with
  | some ap =>
    match positionStep md i ap s.trades with
    | (s2, true) => s2
    | (s2, false) =>
      match s2.pos with
      | none => entryCheck strat md i s2
      | some _ => s2
  | none => entryCheck strat md i s

structure DDState where
  maxDrawdown : JsExtF
  peak : Frac
  balance : Frac
deriving Repr

/-- One drawdown iteration, src/src/utils/backtest.ts lines 197-208.
After the peak update peak - balance is never negative.  When peak is 0
the JavaScript division (peak - balance) / peak yields Infinity for a
positive numerator (Infinity exceeds every previous drawdown, and also
replaces an Infinity maximum by Infinity) and NaN for a zero numerator
(NaN > maxDrawdown is false, leaving the maximum unchanged), which the
two zero-peak branches reproduce. -/
def ddStep (s : DDState) (pl : Frac) : DDState :=
  let balance := s.balance + pl
  let peak := if balance.bgt s.peak then balance else s.peak
  if peak.beq 0 then
    if (peak - balance).bgt 0 then
      { maxDrawdown := .inf, peak := peak, balance := balance }
    else { maxDrawdown := s.maxDrawdown, peak := peak, balance := balance }
  else
    let dd := (peak - balance) / peak
    if jsGtExt (.fin dd) s.maxDrawdown then
      { maxDrawdown := .fin dd, peak := peak, balance := balance }
    else { maxDrawdown := s.maxDrawdown, peak := peak, balance := balance }

/-- The statistics block, src/src/utils/backtest.ts lines 179-221.
Every pushed trade has an exit, so the completed-trades filter keeps the
whole list.  winningTrades / completedTrades || 0 gives 0 when there are
no completed trades (NaN is falsy), which the zero-divisor convention of
the Frac division reproduces. -/
structure BacktestResult where
  totalTrades : ℕ
  winRate : Frac
  profitFactor : JsExtF
  maxDrawdown : JsExtF
  trades : List Trade
deriving Repr

/-- winningTrades, the completed trades with positive profit.  The
completed-trades filter of line 180 keeps the whole list, since every
pushed trade has an exit. -/
def winsOf (trades : List Trade) : List Trade :=
  trades.filter (fun t => t.profitLoss.bgt 0)

/-- losingTrades, the completed trades with negative profit. -/
def losersOf (trades : List Trade) : List Trade :=
  trades.filter (fun t => t.profitLoss.blt 0)

/-- totalGain of line 186. -/
def gainOf (trades : List Trade) : Frac :=
  sumF ((winsOf trades).map (fun t => t.profitLoss))

/-- totalLoss of line 187. -/
def lossOf (trades : List Trade) : Frac :=
  (sumF ((losersOf trades).map (fun t => t.profitLoss))).abs

def btStats (trades : List Trade) : BacktestResult :=
  { totalTrades := trades.length,
    winRate := ofInt (winsOf trades).length / ofInt trades.length,
    profitFactor :=
      if (lossOf trades).bgt 0 then JsExtF.fin (gainOf trades / lossOf trades)
      else if (gainOf trades).bgt 0 then JsExtF.inf
      else JsExtF.fin 0,
    maxDrawdown := (trades.foldl (fun s t => ddStep s t.profitLoss)
      { maxDrawdown := .fin 0, peak := 0, balance := 0 }).maxDrawdown,
    trades := trades }

/-- backtest, src/src/utils/backtest.ts lines 11-222: guard, candle
loop, statistics. -/
def backtest (strat : BStrategy) (md : MarketData) (startIndex : ℕ) :
    Except String BacktestResult :=
  if md.candles.length ≤ startIndex then .error "Insufficient data for backtesting"
  else
    let final := (List.range' startIndex (md.candles.length - startIndex)).foldl
      (stepOnce strat md) ⟨[], none⟩
    .ok (btStats final.trades)

/-
  Concrete inputs.
-/

def mkCandle (t : ℤ) (c : Frac) (hi lo v : Frac) : Candle :=
  { time := ofInt t, openPrice := c, high := hi, low := lo, close := c, volume := v }

/-- Ten rising candles: shorter than every indicator warm-up except the
shortened EMA200 window. -/
def shortData : MarketData :=
  { symbol := "TESTUSDT", timeframe := "1h",
    candles := (List.range 10).map (fun i =>
      let p : Frac := ofInt (100 + (i : ℤ))
      mkCandle (i : ℤ) p (p + 1) (p - 1) (ofInt 1000)),
    marketSentiment := 0 }

/-- Ten candles of a low-priced asset, constant price 0.1234; the ATR of
fewer than 15 candles is 0, so the raw target and stop equal the
price. -/
def microData : MarketData :=
  { symbol := "SHIBUSDT", timeframe := "1h",
    candles := (List.range 10).map (fun i =>
      let p : Frac := q 1234 10000
      mkCandle (i : ℤ) p p p (ofInt 1000)),
    marketSentiment := 0 }

/-- Twenty identical candles: the Bollinger upper band equals the lower
band. -/
def constData : MarketData :=
  { symbol := "TESTUSDT", timeframe := "1h",
    candles := (List.range 20).map (fun i =>
      mkCandle (i : ℤ) (ofInt 100) (ofInt 100) (ofInt 100) (ofInt 1000)),
    marketSentiment := 0 }

/-- Closing prices of the forty-candle input: a gentle walk followed by
twenty candles holding ten 100s and ten 104s, whose population variance
is exactly 4. -/
def mlCloses : List ℤ :=
  [100, 102, 101, 103, 102, 104, 103, 105, 104, 106,
   105, 107, 106, 108, 107, 109, 108, 110, 109, 111,
   104, 100, 104, 100, 100, 104, 104, 100, 104, 100,
   100, 104, 100, 104, 100, 104, 104, 100, 104, 100]

/-- Forty candles long enough for every indicator of the mean reversion
and ML strategies, with a perfect-square Bollinger variance on the
newest window. -/
def mlData : MarketData :=
  { symbol := "TESTUSDT", timeframe := "1h",
    candles := (mlCloses.zip (List.range mlCloses.length)).map (fun ci =>
      let p := ofInt ci.1
      mkCandle (ci.2 : ℤ) p (p + 2) (p - 2) (ofInt (1000 + 10 * (ci.2 : ℤ)))),
    marketSentiment := 0 }

/-- Closing prices of a zigzag uptrend: the last twenty values have mean
107 and population variance exactly 25, and the series keeps rising into
the final candle. -/
def riseCloses : List ℤ :=
  [80, 82, 81, 84, 83, 85, 87, 86, 88, 90,
   89, 91, 93, 92, 94, 96, 95, 97, 99, 98,
   100, 103, 102, 105, 103, 104, 102, 103, 104, 105,
   108, 106, 105, 107, 110, 113, 112, 114, 116, 118]

/-- Forty rising candles with a final volume spike and mildly positive
sentiment; the trend strategy reads them as long, so the ml-enhanced
confidence is sensitive to the Asian-market-hours multiplier of
src/src/prediction.ts lines 649-651. -/
def riseData : MarketData :=
  { symbol := "TESTUSDT", timeframe := "1h",
    candles := (riseCloses.zip (List.range riseCloses.length)).map (fun ci =>
      let p := ofInt ci.1
      mkCandle (ci.2 : ℤ) p (p + 1) (p - 1)
        (if ci.2 = 39 then ofInt 2000 else ofInt (1000 + 10 * (ci.2 : ℤ)))),
    marketSentiment := q 2 5 }

/-- Fifty-two flat candles for the backtest runs. -/
def flatData : MarketData :=
  { symbol := "TESTUSDT", timeframe := "1h",
    candles := (List.range 52).map (fun i =>
      mkCandle (i : ℤ) (ofInt 100) (q 1005 10) (q 998 10) (ofInt 1000)),
    marketSentiment := 0 }

/-- A constant prediction used as a backtest strategy. -/
def constPred (dir : Direction) (conf target stop : Frac) : PredictionResult :=
  let p : Prediction :=
    { direction := dir, confidence := conf, targetPrice := target,
      stopLoss := stop, indicators := [] }
  { symbol := "TESTUSDT", timeframe := "1h", timestamp := 0, currentPrice := 0,
    prediction := p, historicalAccuracy := 0 }

/-- Always-long strategy whose stop at 99.9 is hit by the next flat
candle (low 99.8), yielding one losing trade. -/
def stratLoss : BStrategy := fun _ =>
  .ok (constPred .long (q 9 10) (ofInt 1000) (q 999 10))

/-- Always-long strategy whose target at 100.3 is hit by the next flat
candle (high 100.5), yielding one winning trade. -/
def stratWin : BStrategy := fun _ =>
  .ok (constPred .long (q 9 10) (q 1003 10) (ofInt 90))

/-- A strategy that always throws. -/
def stratThrow : BStrategy := fun _ => .error (.typeError "strategy blew up")

/-
  Shared observation helpers and lemmas for the claim theorems.
-/

def clk0 : Clock := ⟨0, 1, 12⟩

/-- Confidence of a strategy output within the contract interval; an
execution that threw satisfies the property vacuously, matching the
shape of the claim (inputs on which execute returns a result). -/
def confBound (e : Except JsErr PredictionResultE) : Prop :=
  match e with
  | .ok r => 0 ≤ r.prediction.confidence.val ∧ r.prediction.confidence.val ≤ 19 / 20
  | .error _ => True

theorem val_q1920 : (q 19 20).val = 19 / 20 := by
  rw [Frac.val_q 19 20 (by norm_num)]
  norm_num

theorem clamp_bounds (x : Frac) :
    0 ≤ (fmin (fmax x 0) (q 19 20)).val ∧ (fmin (fmax x 0) (q 19 20)).val ≤ 19 / 20 := by
  rw [Frac.val_fmin, Frac.val_fmax, Frac.val_zero, val_q1920]
  constructor
  · apply le_min
    · exact le_max_right _ _
    · norm_num
  · exact min_le_right _ _

theorem mlExec_conf_shape (md : MarketData) (clock : Clock) (r : PredictionResultE)
    (h : mlExec md clock = .ok r) :
    ∃ c0, r.prediction.confidence = fmin (fmax c0 0) (q 19 20) := by
  unfold mlExec at h
  cases hmr : meanRevExec md clock with
  | error e => rw [hmr] at h; exact absurd h (by simp)
  | ok rp =>
    rw [hmr] at h
    dsimp only at h
    cases hbb : (bollingerLib 20 2 (md.candles.map (fun c => c.close))).getLast? with
    | none => rw [hbb] at h; exact absurd h (by simp)
    | some bb =>
      rw [hbb] at h
      cases h
      exact ⟨_, rfl⟩

/-- C1: for every strategy (trend-following, mean-reversion, ml-enhanced)
and every candle input on which execute returns a result, the returned
prediction confidence lies in the closed interval [0, 0.95].  The last
assignment to the confidence in each execute is the clamp
Math.min(Math.max(c, 0), 0.95) of src/src/prediction.ts lines 255, 450
and 661, and nothing after it changes the value. -/
theorem C1_confidence_clamped (md : MarketData) (clock : Clock) :
    (0 ≤ (trendExec md clock).prediction.confidence.val ∧
      (trendExec md clock).prediction.confidence.val ≤ 19 / 20) ∧
    confBound (meanRevExec md clock) ∧ confBound (mlExec md clock) := by
  refine ⟨?_, ?_, ?_⟩
  · show 0 ≤ (trendPredictionOf md).confidence.val ∧
      (trendPredictionOf md).confidence.val ≤ 19 / 20
    show 0 ≤ (trendConfidence (trendCtx md)).val ∧
      (trendConfidence (trendCtx md)).val ≤ 19 / 20
    exact clamp_bounds _
  · unfold confBound meanRevExec
    cases meanRevCore md with
    | error e => trivial
    | ok c =>
      show 0 ≤ (mrConfidence (mrPure md) c).val ∧ (mrConfidence (mrPure md) c).val ≤ 19 / 20
      exact clamp_bounds _
  · cases hml : mlExec md clock with
    | error e => simp only [confBound, hml]
    | ok r =>
      simp only [confBound, hml]
      obtain ⟨c0, hc⟩ := mlExec_conf_shape md clock r hml
      rw [hc]
      exact clamp_bounds c0

/-
  Helpers for the backtest step theorems.
-/

/-- The trade the simulator appends when it closes the position ap at
candle index i at the given price, reason and profit. -/
def expectedExit (ap : ActivePos) (md : MarketData) (i : ℕ) (price : Frac)
    (reason : ExitReason) (pl : Frac) : Trade :=
  { entryTime := ap.entryTimestamp, entryPrice := ap.entryPrice,
    direction := ap.direction, exitTime := (candleAt md i).time, exitPrice := price,
    reason := reason, profitLoss := pl,
    profitLossPercent := pl / ap.entryPrice * ofInt 100 }

/-- Target condition of the open position at index i: high above target
for a long, low below target for a short. -/
def tgtCond (md : MarketData) (i : ℕ) (ap : ActivePos) : Bool :=
  if ap.direction = Direction.long then (candleAt md i).high.bge ap.targetPrice
  else (candleAt md i).low.ble ap.targetPrice

/-- Stop condition of the open position at index i. -/
def stopCond (md : MarketData) (i : ℕ) (ap : ActivePos) : Bool :=
  if ap.direction = Direction.long then (candleAt md i).low.ble ap.stopLoss
  else (candleAt md i).high.bge ap.stopLoss

/-- Directional market-close profit of the forced exit. -/
def sigPnl (md : MarketData) (i : ℕ) (ap : ActivePos) : Frac :=
  if ap.direction = Direction.long then (candleAt md i).close - ap.entryPrice
  else ap.entryPrice - (candleAt md i).close

theorem entryCheck_trades (strat : BStrategy) (md : MarketData) (i : ℕ) (s : BTState) :
    (entryCheck strat md i s).trades = s.trades := by
  unfold entryCheck
  cases strat (mdPre md i) with
  | error e => rfl
  | ok p =>
    dsimp only
    split
    · rfl
    · rfl

/-- C2: at every candle index with an open position, the exit conditions
are checked in the fixed order target, stop, max holding period; a target
exit closes at the target price with reason target, a stop exit at the
stop price with reason stop, and a position held at least 10 candles is
force-closed at the candle close with reason signal.  On any exit the
state appends exactly one directionally priced Trade and the position is
cleared; with no exit condition the state is unchanged. -/
theorem C2_exit_priority (strat : BStrategy) (md : MarketData) (i : ℕ)
    (tr : List Trade) (ap : ActivePos) :
    (ap.direction = Direction.long →
      (((candleAt md i).high.bge ap.targetPrice = true →
        stepOnce strat md ⟨tr, some ap⟩ i =
          ⟨tr ++ [expectedExit ap md i ap.targetPrice .target
            (ap.targetPrice - ap.entryPrice)], none⟩) ∧
       ((candleAt md i).high.bge ap.targetPrice = false →
        (candleAt md i).low.ble ap.stopLoss = true →
        stepOnce strat md ⟨tr, some ap⟩ i =
          ⟨tr ++ [expectedExit ap md i ap.stopLoss .stop
            (ap.stopLoss - ap.entryPrice)], none⟩))) ∧
    (ap.direction ≠ Direction.long →
      (((candleAt md i).low.ble ap.targetPrice = true →
        stepOnce strat md ⟨tr, some ap⟩ i =
          ⟨tr ++ [expectedExit ap md i ap.targetPrice .target
            (ap.entryPrice - ap.targetPrice)], none⟩) ∧
       ((candleAt md i).low.ble ap.targetPrice = false →
        (candleAt md i).high.bge ap.stopLoss = true →
        stepOnce strat md ⟨tr, some ap⟩ i =
          ⟨tr ++ [expectedExit ap md i ap.stopLoss .stop
            (ap.entryPrice - ap.stopLoss)], none⟩))) ∧
    (tgtCond md i ap = false → stopCond md i ap = false → 10 ≤ i - ap.entryIndex →
      (positionStep md i ap tr =
        (⟨tr ++ [expectedExit ap md i (candleAt md i).close .signal (sigPnl md i ap)],
          none⟩, false) ∧
       (stepOnce strat md ⟨tr, some ap⟩ i).trades =
        tr ++ [expectedExit ap md i (candleAt md i).close .signal (sigPnl md i ap)])) ∧
    (tgtCond md i ap = false → stopCond md i ap = false → i - ap.entryIndex < 10 →
      stepOnce strat md ⟨tr, some ap⟩ i = ⟨tr, some ap⟩) := by
  refine ⟨?_, ?_, ?_, ?_⟩
  · intro hdir
    constructor
    · intro htg
      simp [stepOnce, positionStep, hdir, htg, expectedExit]
    · intro htg hst
      simp [stepOnce, positionStep, hdir, htg, hst, expectedExit]
  · intro hdir
    constructor
    · intro htg
      simp [stepOnce, positionStep, if_neg hdir, htg, expectedExit]
    · intro htg hst
      simp [stepOnce, positionStep, if_neg hdir, htg, hst, expectedExit]
  · intro htg hst hold
    by_cases hdir : ap.direction = Direction.long
    · simp [tgtCond, stopCond, hdir] at htg hst
      constructor
      · simp [positionStep, hdir, htg, hst, hold, expectedExit, sigPnl]
      · simp [stepOnce, positionStep, hdir, htg, hst, hold, expectedExit, sigPnl,
          entryCheck_trades]
    · simp [tgtCond, stopCond, hdir] at htg hst
      constructor
      · simp [positionStep, if_neg hdir, htg, hst, hold, expectedExit, sigPnl]
      · simp [stepOnce, positionStep, if_neg hdir, htg, hst, hold, expectedExit, sigPnl,
          entryCheck_trades]
  · intro htg hst hold
    by_cases hdir : ap.direction = Direction.long
    · simp [tgtCond, stopCond, hdir] at htg hst
      simp [stepOnce, positionStep, hdir, htg, hst, Nat.not_le.mpr hold]
    · simp [tgtCond, stopCond, hdir] at htg hst
      simp [stepOnce, positionStep, if_neg hdir, htg, hst, Nat.not_le.mpr hold]

/-- The position opened from a strategy result at candle index i,
src/src/utils/backtest.ts lines 162-171. -/
def openedPos (md : MarketData) (i : ℕ) (p : PredictionResult) : ActivePos :=
  { entryTimestamp := (candleAt md i).time, entryPrice := (candleAt md i).close,
    direction := p.prediction.direction, entryIndex := i,
    targetPrice := p.prediction.targetPrice, stopLoss := p.prediction.stopLoss }

theorem candleAt_congr (md md2 : MarketData) (i : ℕ)
    (hc : md2.candles.take (i + 1) = md.candles.take (i + 1)) :
    candleAt md2 i = candleAt md i := by
  unfold candleAt
  have h1 : md2.candles[i]? = md.candles[i]? := by
    have h2 := congrArg (fun l => l[i]?) hc
    simpa [List.getElem?_take_of_lt (Nat.lt_succ_self i)] using h2
  simp [List.getD_eq_getElem?_getD, h1]

/-- C3: with no open position at index i, the loop body runs the
strategy on exactly the candle prefix candles[0..i]; it opens a position
at the candle close with the returned target and stop exactly when the
direction is not neutral and the confidence exceeds 0.65; a thrown
strategy evaluation leaves the state unchanged; the step depends on the
candles only through the first i+1 of them; and a run over sufficient
data always returns a result (no abort). -/
theorem C3_entry_causal (strat : BStrategy) (md : MarketData) (i : ℕ) (tr : List Trade) :
    stepOnce strat md ⟨tr, none⟩ i = entryCheck strat md i ⟨tr, none⟩ ∧
    (∀ e, strat (mdPre md i) = .error e → stepOnce strat md ⟨tr, none⟩ i = ⟨tr, none⟩) ∧
    (∀ p, strat (mdPre md i) = .ok p →
      ((p.prediction.confidence.bgt (q 13 20) &&
          p.prediction.direction ≠ Direction.neutral) = true →
        stepOnce strat md ⟨tr, none⟩ i = ⟨tr, some (openedPos md i p)⟩) ∧
      ((p.prediction.confidence.bgt (q 13 20) &&
          p.prediction.direction ≠ Direction.neutral) = false →
        stepOnce strat md ⟨tr, none⟩ i = ⟨tr, none⟩)) ∧
    (∀ md2 : MarketData, md2.symbol = md.symbol → md2.timeframe = md.timeframe →
      md2.marketSentiment = md.marketSentiment →
      md2.candles.take (i + 1) = md.candles.take (i + 1) →
      stepOnce strat md2 ⟨tr, none⟩ i = stepOnce strat md ⟨tr, none⟩ i) ∧
    (∀ si, si < md.candles.length → ∃ r, backtest strat md si = .ok r) := by
  refine ⟨rfl, ?_, ?_, ?_, ?_⟩
  · intro e he
    simp [stepOnce, entryCheck, he]
  · intro p hp
    constructor
    · intro hcond
      unfold stepOnce entryCheck
      rw [hp]
      dsimp only
      rw [hcond]
      simp [openedPos]
    · intro hcond
      unfold stepOnce entryCheck
      rw [hp]
      dsimp only
      rw [hcond]
      simp
  · intro md2 hs ht hm hc
    have hpre : mdPre md2 i = mdPre md i := by
      unfold mdPre
      cases md with
      | mk s t c m =>
        cases md2 with
        | mk s2 t2 c2 m2 =>
          simp only at hs ht hm hc ⊢
          rw [hs, ht, hm, hc]
    have hcan : candleAt md2 i = candleAt md i := candleAt_congr md md2 i hc
    simp [stepOnce, entryCheck, hpre, hcan]
  · intro si hsi
    unfold backtest
    rw [if_neg (by omega)]
    exact ⟨_, rfl⟩

/-- C10: after a target or stop exit at candle index i the loop body
executes continue, so no strategy evaluation happens (the step result is
the same for every strategy) and the index ends Flat; after a
max-holding force-close at index i the body falls through to the entry
check on the prefix ending at i and can open a new position with entry
index i at that same candle. -/
theorem C10_no_reentry_after_stop (strat strat2 : BStrategy) (md : MarketData)
    (i : ℕ) (tr : List Trade) (ap : ActivePos) :
    (tgtCond md i ap = true ∨ (tgtCond md i ap = false ∧ stopCond md i ap = true) →
      stepOnce strat md ⟨tr, some ap⟩ i = stepOnce strat2 md ⟨tr, some ap⟩ i ∧
      (stepOnce strat md ⟨tr, some ap⟩ i).pos = none) ∧
    (tgtCond md i ap = false → stopCond md i ap = false → 10 ≤ i - ap.entryIndex →
      stepOnce strat md ⟨tr, some ap⟩ i =
        entryCheck strat md i
          ⟨tr ++ [expectedExit ap md i (candleAt md i).close .signal (sigPnl md i ap)],
            none⟩ ∧
      (∀ p, strat (mdPre md i) = .ok p →
        (p.prediction.confidence.bgt (q 13 20) &&
            p.prediction.direction ≠ Direction.neutral) = true →
        (stepOnce strat md ⟨tr, some ap⟩ i).pos = some (openedPos md i p))) := by
  constructor
  · intro hcase
    by_cases hdir : ap.direction = Direction.long
    · rcases hcase with htg | ⟨htg, hst⟩
      · simp [tgtCond, hdir] at htg
        constructor
        · simp [stepOnce, positionStep, hdir, htg]
        · simp [stepOnce, positionStep, hdir, htg]
      · simp [tgtCond, hdir] at htg
        simp [stopCond, hdir] at hst
        constructor
        · simp [stepOnce, positionStep, hdir, htg, hst]
        · simp [stepOnce, positionStep, hdir, htg, hst]
    · rcases hcase with htg | ⟨htg, hst⟩
      · simp [tgtCond, hdir] at htg
        constructor
        · simp [stepOnce, positionStep, if_neg hdir, htg]
        · simp [stepOnce, positionStep, if_neg hdir, htg]
      · simp [tgtCond, hdir] at htg
        simp [stopCond, hdir] at hst
        constructor
        · simp [stepOnce, positionStep, if_neg hdir, htg, hst]
        · simp [stepOnce, positionStep, if_neg hdir, htg, hst]
  · intro htg hst hold
    have hstep : stepOnce strat md ⟨tr, some ap⟩ i =
        entryCheck strat md i
          ⟨tr ++ [expectedExit ap md i (candleAt md i).close .signal (sigPnl md i ap)],
            none⟩ := by
      by_cases hdir : ap.direction = Direction.long
      · simp [tgtCond, hdir] at htg
        simp [stopCond, hdir] at hst
        simp [stepOnce, positionStep, hdir, htg, hst, hold, expectedExit, sigPnl]
      · simp [tgtCond, hdir] at htg
        simp [stopCond, hdir] at hst
        simp [stepOnce, positionStep, if_neg hdir, htg, hst, hold, expectedExit, sigPnl]
    refine ⟨hstep, ?_⟩
    intro p hp hcond
    rw [hstep]
    unfold entryCheck
    rw [hp]
    dsimp only
    rw [hcond]
    simp [openedPos]

theorem bgt0_iff (x : Frac) : (x.bgt 0 = true) ↔ 0 < x.val := by
  show (Frac.blt 0 x = true) ↔ _
  rw [Frac.blt_iff, Frac.val_zero]

theorem lossOf_nonneg (tl : List Trade) : 0 ≤ (lossOf tl).val := by
  unfold lossOf
  rw [Frac.val_abs]
  exact abs_nonneg _

theorem btStats_spec (tl : List Trade) :
    ((btStats tl).winRate.val = if tl.length = 0 then 0
      else ((winsOf tl).length : ℚ) / (tl.length : ℚ)) ∧
    0 ≤ (btStats tl).winRate.val ∧ (btStats tl).winRate.val ≤ 1 ∧
    (0 < (lossOf tl).val →
      (btStats tl).profitFactor = .fin (gainOf tl / lossOf tl)) ∧
    ((btStats tl).profitFactor = .inf ↔
      ((lossOf tl).val = 0 ∧ 0 < (gainOf tl).val)) ∧
    ((gainOf tl).val = 0 ∧ (lossOf tl).val = 0 → (btStats tl).profitFactor = .fin 0) := by
  have hwr : (btStats tl).winRate.val = ((winsOf tl).length : ℚ) / (tl.length : ℚ) := by
    show (ofInt (winsOf tl).length / ofInt tl.length).val = _
    rw [Frac.val_div, Frac.val_ofInt, Frac.val_ofInt]
    push_cast
    rfl
  have hle : (winsOf tl).length ≤ tl.length := List.length_filter_le _ _
  refine ⟨?_, ?_, ?_, ?_, ?_, ?_⟩
  · rw [hwr]
    by_cases h0 : tl.length = 0
    · have : (winsOf tl).length = 0 := by omega
      simp [h0, this]
    · simp [h0]
  · rw [hwr]
    positivity
  · rw [hwr]
    by_cases h0 : tl.length = 0
    · have : (winsOf tl).length = 0 := by omega
      simp [h0, this]
    · rw [div_le_one (by exact_mod_cast Nat.pos_of_ne_zero h0)]
      exact_mod_cast hle
  · intro hl
    show (if (lossOf tl).bgt 0 then JsExtF.fin (gainOf tl / lossOf tl)
      else if (gainOf tl).bgt 0 then JsExtF.inf else JsExtF.fin 0) = _
    rw [if_pos ((bgt0_iff _).mpr hl)]
  · show (if (lossOf tl).bgt 0 then JsExtF.fin (gainOf tl / lossOf tl)
      else if (gainOf tl).bgt 0 then JsExtF.inf else JsExtF.fin 0) = JsExtF.inf ↔ _
    by_cases hl : 0 < (lossOf tl).val
    · rw [if_pos ((bgt0_iff _).mpr hl)]
      constructor
      · intro h; exact absurd h (by simp)
      · intro h; exact absurd h.1 (ne_of_gt hl)
    · have hl0 : (lossOf tl).val = 0 := le_antisymm (not_lt.mp hl) (lossOf_nonneg tl)
      rw [if_neg (by rw [bgt0_iff]; exact hl)]
      by_cases hg : 0 < (gainOf tl).val
      · rw [if_pos ((bgt0_iff _).mpr hg)]
        simp [hl0, hg]
      · rw [if_neg (by rw [bgt0_iff]; exact hg)]
        constructor
        · intro h; exact absurd h (by simp)
        · intro h; exact absurd h.2 hg
  · rintro ⟨hg, hl⟩
    show (if (lossOf tl).bgt 0 then JsExtF.fin (gainOf tl / lossOf tl)
      else if (gainOf tl).bgt 0 then JsExtF.inf else JsExtF.fin 0) = _
    rw [if_neg (by rw [bgt0_iff, hl]; exact lt_irrefl 0),
      if_neg (by rw [bgt0_iff, hg]; exact lt_irrefl 0)]

/-- C4: after every backtest run, winRate equals winningTrades divided by
completedTrades (0 when there are none), hence lies in [0,1]; the profit
factor is totalGain / totalLoss when totalLoss is positive, Infinity
exactly when totalLoss is 0 and totalGain positive, and 0 when both are
0. -/
theorem C4_derived_stats (strat : BStrategy) (md : MarketData) (si : ℕ)
    (r : BacktestResult) (h : backtest strat md si = .ok r) :
    (r.winRate.val = if r.trades.length = 0 then 0
      else ((winsOf r.trades).length : ℚ) / (r.trades.length : ℚ)) ∧
    0 ≤ r.winRate.val ∧ r.winRate.val ≤ 1 ∧
    (0 < (lossOf r.trades).val →
      r.profitFactor = .fin (gainOf r.trades / lossOf r.trades)) ∧
    (r.profitFactor = .inf ↔
      ((lossOf r.trades).val = 0 ∧ 0 < (gainOf r.trades).val)) ∧
    ((gainOf r.trades).val = 0 ∧ (lossOf r.trades).val = 0 →
      r.profitFactor = .fin 0) := by
  unfold backtest at h
  split at h
  · exact absurd h (by simp)
  · rw [Except.ok.injEq] at h
    subst h
    exact btStats_spec _

theorem val_foldl_add (l : List Frac) (a : Frac) :
    (l.foldl (fun x y => x + y) a).val = a.val + (l.map Frac.val).sum := by
  induction l generalizing a with
  | nil => simp
  | cons x xs ih =>
    simp only [List.foldl_cons, List.map_cons, List.sum_cons]
    rw [ih, Frac.val_add]
    ring

theorem val_sumF (l : List Frac) : (sumF l).val = (l.map Frac.val).sum := by
  unfold sumF
  rw [val_foldl_add, Frac.val_zero, zero_add]

theorem bgt_false_le (x y : Frac) (h : x.bgt y = false) : x.val ≤ y.val := by
  unfold Frac.bgt at h
  by_contra hc
  push_neg at hc
  rw [(Frac.blt_iff y x).mpr hc] at h
  exact Bool.noConfusion h

theorem beq_true_eq (x y : Frac) (h : x.beq y = true) : x.val = y.val :=
  (Frac.beq_iff x y).mp h

theorem beq_false_ne (x y : Frac) (h : x.beq y = false) : x.val ≠ y.val := by
  intro hc
  rw [(Frac.beq_iff x y).mpr hc] at h
  exact Bool.noConfusion h

theorem bool_eq_false_of_not {b : Bool} (h : ¬b = true) : b = false := by
  cases hb : b with
  | false => rfl
  | true => exact absurd hb h

/-- One drawdown step preserves: balance below peak, peak nonnegative,
and a maximum drawdown that is Infinity or a nonnegative number. -/
theorem ddStep_inv (s : DDState) (pl : Frac)
    (hp : 0 ≤ s.peak.val)
    (hm : s.maxDrawdown = .inf ∨ ∃ x, s.maxDrawdown = .fin x ∧ 0 ≤ x.val) :
    (ddStep s pl).balance.val ≤ (ddStep s pl).peak.val ∧
    0 ≤ (ddStep s pl).peak.val ∧
    ((ddStep s pl).maxDrawdown = .inf ∨
      ∃ x, (ddStep s pl).maxDrawdown = .fin x ∧ 0 ≤ x.val) := by
  unfold ddStep
  set b := s.balance + pl with hb
  set pk := if b.bgt s.peak then b else s.peak with hpkdef
  have hble : b.val ≤ pk.val ∧ 0 ≤ pk.val := by
    rw [hpkdef]
    by_cases hcmp : b.bgt s.peak = true
    · rw [if_pos hcmp]
      have := (Frac.blt_iff s.peak b).mp hcmp
      exact ⟨le_refl _, le_trans hp this.le⟩
    · rw [if_neg hcmp]
      exact ⟨bgt_false_le b s.peak (bool_eq_false_of_not hcmp), hp⟩
  obtain ⟨hble, hpos⟩ := hble
  by_cases hz : pk.beq 0 = true
  · rw [if_pos hz]
    by_cases hgtz : (pk - b).bgt 0 = true
    · rw [if_pos hgtz]
      exact ⟨hble, hpos, Or.inl rfl⟩
    · rw [if_neg hgtz]
      exact ⟨hble, hpos, hm⟩
  · rw [if_neg hz]
    by_cases hgt : jsGtExt (.fin ((pk - b) / pk)) s.maxDrawdown = true
    · rw [if_pos hgt]
      refine ⟨hble, hpos, Or.inr ⟨_, rfl, ?_⟩⟩
      have hne : pk.val ≠ 0 := by
        intro hx
        have h2 : pk.beq 0 = true := (Frac.beq_iff pk 0).mpr (by rw [hx, Frac.val_zero])
        exact hz h2
      have hpkpos : 0 < pk.val := lt_of_le_of_ne hpos (Ne.symm hne)
      rw [Frac.val_div, Frac.val_sub]
      apply div_nonneg _ hpkpos.le
      linarith
    · rw [if_neg hgt]
      exact ⟨hble, hpos, hm⟩

theorem ddFold_nonneg (tl : List Trade) (s : DDState)
    (hp : 0 ≤ s.peak.val)
    (hm : s.maxDrawdown = .inf ∨ ∃ x, s.maxDrawdown = .fin x ∧ 0 ≤ x.val) :
    (tl.foldl (fun st t => ddStep st t.profitLoss) s).maxDrawdown = .inf ∨
    ∃ x, (tl.foldl (fun st t => ddStep st t.profitLoss) s).maxDrawdown = .fin x ∧
      0 ≤ x.val := by
  induction tl generalizing s with
  | nil => exact hm
  | cons t rest ih =>
    simp only [List.foldl_cons]
    obtain ⟨h1, h2, h3⟩ := ddStep_inv s t.profitLoss hp hm
    exact ih (ddStep s t.profitLoss) h2 h3

theorem ddStep_balance (s : DDState) (pl : Frac) :
    (ddStep s pl).balance = s.balance + pl := by
  unfold ddStep
  dsimp only
  split <;> split <;> (try split) <;> rfl

theorem ddStep_unit (s : DDState) (pl : Frac)
    (hb0 : 0 ≤ (s.balance + pl).val)
    (hp : 0 ≤ s.peak.val)
    (hm : ∃ x, s.maxDrawdown = .fin x ∧ 0 ≤ x.val ∧ x.val ≤ 1) :
    0 ≤ (ddStep s pl).peak.val ∧
    ∃ x, (ddStep s pl).maxDrawdown = .fin x ∧ 0 ≤ x.val ∧ x.val ≤ 1 := by
  unfold ddStep
  set b := s.balance + pl with hbdef
  set pk := if b.bgt s.peak then b else s.peak with hpkdef
  have hkey : b.val ≤ pk.val ∧ 0 ≤ pk.val := by
    rw [hpkdef]
    by_cases hcmp : b.bgt s.peak = true
    · rw [if_pos hcmp]
      have := (Frac.blt_iff s.peak b).mp hcmp
      exact ⟨le_refl _, le_trans hp this.le⟩
    · rw [if_neg hcmp]
      exact ⟨bgt_false_le b s.peak (bool_eq_false_of_not hcmp), hp⟩
  obtain ⟨hble, hpos⟩ := hkey
  by_cases hz : pk.beq 0 = true
  · rw [if_pos hz]
    have hpk0 : pk.val = 0 := by
      have := beq_true_eq pk 0 hz
      rwa [Frac.val_zero] at this
    have hbeq : b.val = 0 := le_antisymm (hpk0 ▸ hble) hb0
    have hgtz : (pk - b).bgt 0 = false := by
      apply bool_eq_false_of_not
      intro hgt
      unfold Frac.bgt at hgt
      have := (Frac.blt_iff 0 (pk - b)).mp hgt
      rw [Frac.val_zero, Frac.val_sub, hpk0, hbeq] at this
      exact absurd this (by norm_num)
    rw [if_neg (by rw [hgtz]; exact Bool.noConfusion)]
    exact ⟨hpos, hm⟩
  · rw [if_neg hz]
    have hne : pk.val ≠ 0 := by
      intro hx
      exact hz ((Frac.beq_iff pk 0).mpr (by rw [hx, Frac.val_zero]))
    have hpkpos : 0 < pk.val := lt_of_le_of_ne hpos (Ne.symm hne)
    have hdd : 0 ≤ ((pk - b) / pk).val ∧ ((pk - b) / pk).val ≤ 1 := by
      rw [Frac.val_div, Frac.val_sub]
      constructor
      · apply div_nonneg _ hpkpos.le
        linarith
      · rw [div_le_one hpkpos]
        linarith
    by_cases hgt : jsGtExt (.fin ((pk - b) / pk)) s.maxDrawdown = true
    · rw [if_pos hgt]
      exact ⟨hpos, _, rfl, hdd⟩
    · rw [if_neg hgt]
      exact ⟨hpos, hm⟩

theorem ddFold_unit (tl : List Trade) (s : DDState)
    (hp : 0 ≤ s.peak.val)
    (hm : ∃ x, s.maxDrawdown = .fin x ∧ 0 ≤ x.val ∧ x.val ≤ 1)
    (hpre : ∀ k, 0 ≤ s.balance.val +
      ((tl.take k).map (fun t => t.profitLoss.val)).sum) :
    ∃ x, (tl.foldl (fun st t => ddStep st t.profitLoss) s).maxDrawdown = .fin x ∧
      0 ≤ x.val ∧ x.val ≤ 1 := by
  induction tl generalizing s with
  | nil => exact hm
  | cons t rest ih =>
    simp only [List.foldl_cons]
    have hb1 : 0 ≤ (s.balance + t.profitLoss).val := by
      have h1 := hpre 1
      rw [Frac.val_add]
      simpa using h1
    obtain ⟨hp2, hm2⟩ := ddStep_unit s t.profitLoss hb1 hp hm
    apply ih (ddStep s t.profitLoss) hp2 hm2
    intro k
    have hk := hpre (k + 1)
    rw [ddStep_balance, Frac.val_add]
    simp only [List.take_succ_cons, List.map_cons, List.sum_cons] at hk
    linarith

/-- The C5 claim as stated: the reported maximum drawdown lies in [0,1]. -/
def mddInUnit (r : BacktestResult) : Prop :=
  match r.maxDrawdown with
  | .fin x => 0 ≤ x.val ∧ x.val ≤ 1
  | .inf => False

def tradeLoss : Trade :=
  { entryTime := q 50 1, entryPrice := q 100 1, direction := .long,
    exitTime := q 51 1, exitPrice := q 999 10, reason := .stop,
    profitLoss := q (-1) 10, profitLossPercent := q (-1) 10 }

def btLossResult : BacktestResult :=
  { totalTrades := 1, winRate := q 0 1, profitFactor := .fin (q 0 1),
    maxDrawdown := .inf, trades := [tradeLoss] }

def tradeWin : Trade :=
  { entryTime := q 50 1, entryPrice := q 100 1, direction := .long,
    exitTime := q 51 1, exitPrice := q 1003 10, reason := .target,
    profitLoss := q 3 10, profitLossPercent := q 3 10 }

def btWinResult : BacktestResult :=
  { totalTrades := 1, winRate := q 1 1, profitFactor := .inf,
    maxDrawdown := .fin (q 0 1), trades := [tradeWin] }

set_option maxRecDepth 100000 in
/-- C5 counterexample: a run whose only trade is a loss leaves the
running peak at 0, and the JavaScript division (peak - balance) / peak
returns Infinity, so the reported maxDrawdown is Infinity and not in
[0,1]. -/
theorem C5_counterexample :
    backtest stratLoss flatData 50 = .ok btLossResult ∧ ¬ mddInUnit btLossResult := by
  constructor
  · rfl
  · intro h
    exact h

/-- C5 amended: the reported maxDrawdown is either Infinity (possible as
soon as the running balance dips below a zero peak) or a nonnegative
number; it lies in [0,1] whenever every prefix of the trade sequence has
a nonnegative cumulative profit. -/
theorem C5_amended (strat : BStrategy) (md : MarketData) (si : ℕ)
    (r : BacktestResult) (h : backtest strat md si = .ok r) :
    (r.maxDrawdown = .inf ∨ ∃ x, r.maxDrawdown = .fin x ∧ 0 ≤ x.val) ∧
    ((∀ k, Frac.ble 0 (sumF ((r.trades.take k).map (fun t => t.profitLoss))) = true) →
      ∃ x, r.maxDrawdown = .fin x ∧ 0 ≤ x.val ∧ x.val ≤ 1) := by
  unfold backtest at h
  split at h
  · exact absurd h (by simp)
  · rw [Except.ok.injEq] at h
    subst h
    simp only [btStats]
    constructor
    · apply ddFold_nonneg
      · rw [Frac.val_zero]
      · refine Or.inr ⟨_, rfl, ?_⟩
        rw [Frac.val_zero]
    · intro hpos
      apply ddFold_unit
      · rw [Frac.val_zero]
      · refine ⟨_, rfl, ?_, ?_⟩
        · rw [Frac.val_zero]
        · rw [Frac.val_zero]; norm_num
      · intro k
        have h2 := (Frac.ble_iff _ _).mp (hpos k)
        rw [Frac.val_zero, val_sumF] at h2
        rw [Frac.val_zero, List.map_map] at *
        simpa using h2

theorem slidingWindows_eq_nil (p : ℕ) (l : List Frac) (h : l.length < p) :
    slidingWindows p l = [] := by
  cases l with
  | nil => rfl
  | cons x rest =>
    unfold slidingWindows
    rw [if_neg (by omega)]

set_option maxRecDepth 1000000 in
/-- C6 counterexample: ten candles are below the minimum lookback of
every requested indicator, yet trendFollowingStrategy.execute returns a
PredictionResult (direction short with confidence 23/30 on this input)
instead of failing with an InsufficientData error. -/
theorem C6_counterexample :
    shortData.candles.length = 10 ∧
    (trendExec shortData clk0).prediction.direction = Direction.short ∧
    ((trendExec shortData clk0).prediction.confidence.beq (q 23 30)) = true := by
  decide

/-- C6 amended: below 20 candles the mean reversion strategy does fail,
but with a generic TypeError from reading a property of an undefined
Bollinger entry, not with a typed InsufficientData error; the trend
following strategy does not fail at all on short inputs (see the
counterexample). -/
theorem C6_amended (md : MarketData) (clock : Clock) (h : md.candles.length < 20) :
    meanRevExec md clock = .error (.typeError "reading upper of undefined latestBB") := by
  have hbb : bollingerLib 20 2 (md.candles.map (fun c => c.close)) = [] := by
    unfold bollingerLib
    rw [slidingWindows_eq_nil 20 _ (by simpa using h)]
    rfl
  unfold meanRevExec meanRevCore
  dsimp only
  rw [hbb]
  rfl

theorem C6_witness :
    meanRevExec shortData clk0 = .error (.typeError "reading upper of undefined latestBB") :=
  C6_amended shortData clk0 (by decide)

def bbConst : BBOut := { middle := q 100 1, upper := q 100 1, lower := q 100 1 }

set_option maxRecDepth 1000000 in
/-- C7 counterexample: on twenty identical candles the newest Bollinger
entry has equal upper and lower bands, and the mean reversion execute
throws the js-big-decimal divide-by-zero error instead of absorbing the
degeneracy into a sentinel value and returning a prediction. -/
theorem C7_counterexample :
    meanRevExec constData clk0 = .error JsErr.divideByZero ∧
    (bollingerLib 20 2 (constData.candles.map (fun c => c.close))).getLast? = some bbConst ∧
    bbConst.upper = bbConst.lower := by
  refine ⟨rfl, rfl, rfl⟩

/-- C7 amended: whenever the newest Bollinger entry has upper band equal
to lower band, the percent-B division fails explicitly (the
js-big-decimal divide throws on a zero divisor) and execute surfaces the
error to the caller rather than returning a prediction. -/
theorem C7_amended (md : MarketData) (clock : Clock) (bb : BBOut)
    (hbb : (bollingerLib 20 2 (md.candles.map (fun c => c.close))).getLast? = some bb)
    (heq : bb.upper = bb.lower) :
    meanRevExec md clock = .error JsErr.divideByZero := by
  have hz : (bb.upper - bb.lower).beq 0 = true := by
    apply (Frac.beq_iff _ _).mpr
    rw [Frac.val_sub, heq, Frac.val_zero, sub_self]
  unfold meanRevExec meanRevCore
  dsimp only
  rw [hbb]
  dsimp only
  rw [hz]
  rfl

set_option maxRecDepth 1000000 in
theorem C7_witness : meanRevExec constData clk0 = .error JsErr.divideByZero :=
  C7_amended constData clk0 bbConst rfl rfl

def confDiffers (a b : Except JsErr PredictionResultE) : Bool :=
  match a, b with
  | .ok r1, .ok r2 => !(r1.prediction.confidence.beq r2.prediction.confidence)
  | _, _ => false

set_option maxRecDepth 4000000 in
/-- C8 counterexample: on the same forty-candle input and the same
sentiment, two invocations of the ml-enhanced execute on different days
of the week return different confidences (the weekend multiplier of
src/src/prediction.ts line 645), and two invocations of the trend
execute at different wall-clock instants differ in their timestamp
field, so the results are not bit-identical. -/
theorem C8_counterexample :
    confDiffers (mlExec mlData ⟨0, 2, 12⟩) (mlExec mlData ⟨0, 6, 12⟩) = true ∧
    (trendExec mlData ⟨0, 2, 12⟩).timestamp.beq (trendExec mlData ⟨1, 2, 12⟩).timestamp
      = false := by
  decide

/-- The clock-free part of a strategy output: the prediction component,
the historical accuracy and the current price; a thrown execution maps
to none. -/
def stampFree (e : Except JsErr PredictionResultE) : Option (PredictionE × Frac × Frac) :=
  match e with
  | .ok r => some (r.prediction, r.historicalAccuracy, r.currentPrice)
  | .error _ => none

/-- The timestamp of a successful strategy output. -/
def stampOfE (e : Except JsErr PredictionResultE) : Option Frac :=
  match e with
  | .ok r => some r.timestamp
  | .error _ => none

set_option maxRecDepth 4000000 in
/-- C8 amended: for a fixed candle input and fixed sentiment the two base
strategies are deterministic: their prediction component (direction,
confidence, target, stop, indicators), historical accuracy and current
price are identical across invocations at arbitrary clocks, while the
timestamp of every successful result (base or ml) equals the Date.now of
the invocation, so results taken at different instants differ in the
timestamp; the ml-enhanced confidence additionally depends on the clock
itself: it changes with the day of week (see the counterexample) and,
for a long combined signal, with the hour of day, shown concretely on a
rising input where the Asian-market-hours multiplier of
src/src/prediction.ts lines 649-651 fires. -/
theorem C8_amended (md : MarketData) (c1 c2 : Clock) :
    (trendExec md c1).prediction = (trendExec md c2).prediction ∧
    (trendExec md c1).historicalAccuracy = (trendExec md c2).historicalAccuracy ∧
    (trendExec md c1).currentPrice = (trendExec md c2).currentPrice ∧
    (trendExec md c1).timestamp = c1.now ∧
    stampFree (meanRevExec md c1) = stampFree (meanRevExec md c2) ∧
    stampOfE (meanRevExec md c1) = (stampFree (meanRevExec md c1)).map (fun _ => c1.now) ∧
    stampOfE (mlExec md c1) = (stampFree (mlExec md c1)).map (fun _ => c1.now) ∧
    confDiffers (mlExec riseData ⟨0, 2, 3⟩) (mlExec riseData ⟨0, 2, 12⟩) = true := by
  refine ⟨rfl, rfl, rfl, rfl, ?_, ?_, ?_, by decide⟩
  · unfold stampFree meanRevExec
    cases meanRevCore md with
    | error e => rfl
    | ok c => rfl
  · unfold stampOfE stampFree meanRevExec
    cases meanRevCore md with
    | error e => rfl
    | ok c => rfl
  · unfold mlExec
    cases hmr : meanRevExec md c1 with
    | error e => simp only [stampOfE, stampFree, Option.map]
    | ok rp =>
      dsimp only
      cases hbb : (bollingerLib 20 2 (md.candles.map (fun c => c.close))).getLast? with
      | none => simp only [stampOfE, stampFree, Option.map]
      | some bb => simp only [stampOfE, stampFree, Option.map]

set_option maxRecDepth 1000000 in
/-- C9 counterexample: for an asset priced at 0.1234 (below one), the
emitted target and stop prices equal the 2-decimal rounding of the raw
values and differ from their 3- and 4-decimal roundings, so small-priced
assets do not receive more decimal places: the rounding is the fixed
Number(x.toFixed(2)) of src/src/prediction.ts lines 300-301. -/
theorem C9_counterexample :
    (trendExec microData clk0).currentPrice.blt (ofInt 1) = true ∧
    ((trendExec microData clk0).prediction.targetPrice.beq
      (roundTo 2 (trendTargetRaw (trendCtx microData)))) = true ∧
    ((roundTo 2 (trendTargetRaw (trendCtx microData))).beq
      (roundTo 3 (trendTargetRaw (trendCtx microData)))) = false ∧
    ((roundTo 2 (trendTargetRaw (trendCtx microData))).beq
      (roundTo 4 (trendTargetRaw (trendCtx microData)))) = false ∧
    ((trendExec microData clk0).prediction.stopLoss.beq
      (.fin (roundTo 2 (trendStopRaw (trendCtx microData))))) = true := by
  decide

theorem round2_val (x : Frac) : ∃ m : ℤ, (round2 x).val = (m : ℚ) / 100 := by
  refine ⟨ffloor (x * ofInt ((10 : ℤ) ^ 2) + q 1 2), ?_⟩
  unfold round2 roundTo
  rw [Frac.val_q _ _ (by norm_num)]
  norm_num

/-- Target and stop of every successful ml output are the 2-decimal
serializations of the combined raw values. -/
theorem mlExec_price_shape (md : MarketData) (clock : Clock) (r : PredictionResultE)
    (h : mlExec md clock = .ok r) :
    (∃ t, r.prediction.targetPrice = round2 t) ∧
    (∃ s, r.prediction.stopLoss = extRound2 s) := by
  unfold mlExec at h
  cases hmr : meanRevExec md clock with
  | error e => rw [hmr] at h; exact absurd h (by simp)
  | ok rp =>
    rw [hmr] at h
    dsimp only at h
    cases hbb : (bollingerLib 20 2 (md.candles.map (fun c => c.close))).getLast? with
    | none => rw [hbb] at h; exact absurd h (by simp)
    | some bb =>
      rw [hbb] at h
      cases h
      exact ⟨⟨_, rfl⟩, ⟨_, rfl⟩⟩

/-- A value with exactly two decimal places. -/
def twoDec (x : Frac) : Prop := ∃ m : ℤ, x.val = (m : ℚ) / 100

/-- An emitted stop loss: a two-decimal value or Infinity. -/
def stop2OrInf (s : JsExtF) : Prop :=
  s = JsExtF.inf ∨ ∃ x, s = JsExtF.fin x ∧ twoDec x

/-- Number(x.toFixed(2)) on an extended value is Infinity or the
2-decimal rounding of a finite value. -/
theorem extRound2_shape (s : JsExtF) :
    extRound2 s = JsExtF.inf ∨ ∃ v, extRound2 s = JsExtF.fin (round2 v) := by
  cases s with
  | fin v => exact Or.inr ⟨v, rfl⟩
  | inf => exact Or.inl rfl

/-- The C9 claim domain for the fallible strategies. -/
def fixed2 (e : Except JsErr PredictionResultE) : Prop :=
  match e with
  | .ok r => twoDec r.prediction.targetPrice ∧ stop2OrInf r.prediction.stopLoss
  | .error _ => True

/-- The Infinity corner of the mean reversion stop: a short direction
near a resistance but with no resistance level strictly above the price
sets the unrounded stop to Infinity, src/src/prediction.ts lines
479-484. -/
def infCorner : Prop :=
  ∀ (p : MRPure) (c : MRCtx), mrDirection p c = Direction.short →
    p.isNearResistance = true →
    p.sr.resistance.filter (fun r => r.bgt p.currentPrice) = [] →
    mrStopRaw p c = JsExtF.inf

/-- C9 amended: for every strategy and every input, the serialized
target price is an integer multiple of 1/100 (the fixed
Number(x.toFixed(2)) of src/src/prediction.ts lines 300-301, 507-508 and
715-716), and the serialized stop loss is such a two-decimal value or
Infinity; the Infinity arises from the short near-resistance corner of
lines 479-484, where Math.min over an empty spread passes the positive
guard, and it survives toFixed(2) and the ml weighted stop blend (the
final two conjuncts).  The precision never grows with a small price
magnitude, so callers cannot expect more decimal places for small-priced
assets. -/
theorem C9_amended (md : MarketData) (clock : Clock) :
    (twoDec (trendExec md clock).prediction.targetPrice ∧
      stop2OrInf (trendExec md clock).prediction.stopLoss) ∧
    fixed2 (meanRevExec md clock) ∧ fixed2 (mlExec md clock) ∧ infCorner ∧
    extRound2 JsExtF.inf = JsExtF.inf ∧
    (∀ (a : Frac) (y : JsExtF) (b : Frac), extWSum JsExtF.inf a y b = JsExtF.inf) := by
  refine ⟨⟨?_, ?_⟩, ?_, ?_, ?_, rfl, fun a y b => by cases y <;> rfl⟩
  · show twoDec (round2 (trendTargetRaw (trendCtx md)))
    exact round2_val _
  · show stop2OrInf (JsExtF.fin (round2 (trendStopRaw (trendCtx md))))
    exact Or.inr ⟨_, rfl, round2_val _⟩
  · unfold fixed2 meanRevExec
    cases meanRevCore md with
    | error e => trivial
    | ok c =>
      refine ⟨round2_val _, ?_⟩
      show stop2OrInf (extRound2 (mrStopRaw (mrPure md) c))
      rcases extRound2_shape (mrStopRaw (mrPure md) c) with h | ⟨v, h⟩
      · exact Or.inl h
      · exact Or.inr ⟨_, h, round2_val _⟩
  · cases hml : mlExec md clock with
    | error e => simp only [fixed2, hml]
    | ok r =>
      simp only [fixed2, hml]
      obtain ⟨⟨t1, ht1⟩, ⟨s2, hs2⟩⟩ := mlExec_price_shape md clock r hml
      rw [ht1, hs2]
      refine ⟨round2_val _, ?_⟩
      rcases extRound2_shape s2 with h | ⟨v, h⟩
      · exact Or.inl h
      · exact Or.inr ⟨_, h, round2_val _⟩
  · intro p c hdir hnear hfil
    unfold mrStopRaw
    rw [hdir]
    dsimp only
    rw [hnear, hfil]
    rfl

def apWitness : ActivePos :=
  { entryTimestamp := q 40 1, entryPrice := q 100 1, direction := .long,
    entryIndex := 40, targetPrice := q 1003 10, stopLoss := q 90 1 }

theorem C2_witness :
    stepOnce stratThrow flatData ⟨[], some apWitness⟩ 51 =
      ⟨[] ++ [expectedExit apWitness flatData 51 apWitness.targetPrice .target
        (apWitness.targetPrice - apWitness.entryPrice)], none⟩ :=
  ((C2_exit_priority stratThrow flatData 51 [] apWitness).1 rfl).1 (by decide)

theorem C3_witness :
    stepOnce stratThrow flatData ⟨[], none⟩ 50 = ⟨[], none⟩ ∧
    ∃ r, backtest stratThrow flatData 50 = .ok r :=
  ⟨(C3_entry_causal stratThrow flatData 50 []).2.1 (.typeError "strategy blew up") rfl,
    (C3_entry_causal stratThrow flatData 50 []).2.2.2.2 50 (by decide)⟩

def apHeld : ActivePos :=
  { entryTimestamp := q 40 1, entryPrice := q 100 1, direction := .long,
    entryIndex := 40, targetPrice := q 1000 1, stopLoss := q 90 1 }

theorem C10_witness :
    (stepOnce stratWin flatData ⟨[], some apHeld⟩ 51).pos =
      some (openedPos flatData 51 (constPred .long (q 9 10) (q 1003 10) (ofInt 90))) :=
  ((C10_no_reentry_after_stop stratWin stratThrow flatData 51 [] apHeld).2
    (by decide) (by decide) (by decide)).2
    (constPred .long (q 9 10) (q 1003 10) (ofInt 90)) rfl (by decide)

set_option maxRecDepth 1000000 in
theorem C4_witness :
    (btWinResult.winRate.val = if btWinResult.trades.length = 0 then 0
      else ((winsOf btWinResult.trades).length : ℚ) / (btWinResult.trades.length : ℚ)) ∧
    0 ≤ btWinResult.winRate.val ∧ btWinResult.winRate.val ≤ 1 :=
  ⟨(C4_derived_stats stratWin flatData 50 btWinResult (by rfl)).1,
    (C4_derived_stats stratWin flatData 50 btWinResult (by rfl)).2.1,
    (C4_derived_stats stratWin flatData 50 btWinResult (by rfl)).2.2.1⟩

set_option maxRecDepth 1000000 in
theorem C5_witness :
    ∃ x, btWinResult.maxDrawdown = .fin x ∧ 0 ≤ x.val ∧ x.val ≤ 1 :=
  (C5_amended stratWin flatData 50 btWinResult (by rfl)).2
    (by
      intro k
      cases k with
      | zero => decide
      | succ m =>
        simp only [btWinResult, List.take_succ_cons, List.take_nil]
        decide)
